import Mathlib

/-!
Verification of the ECL formatter (`ecl-formatter`): a shallow embedding of
its tokenizer (`src/parser/lexer.ts`), grammar (`src/parser/parser.ts`),
AST builder (`src/parser/visitor.ts`), complexity classifier
(`src/formatter/rules.ts`), printer (`src/formatter/printer.ts`) and facade
(`src/formatter/format.ts`), together with theorems settling the claims
about the pipeline.

Conventions of the embedding:
- JavaScript strings are Lean `String`s (all inputs considered are ASCII,
  so `.length` agrees with the UTF-16 length used by JS).
- Fallible stages (`print`, the AST builder) return `Except String _`;
  a thrown JS exception is `Except.error` carrying the stringified message.
- Recursion that is not structural uses an explicit fuel argument so that
  every definition is executable and kernel-reducible; fuel exhaustion is
  reported as an error and never occurs on the concrete inputs evaluated.
-/

namespace Ecl

/-- Token kinds of the tokenizer, one per `createToken` call in
`src/parser/lexer.ts` (the current revision; names match the token names). -/
inductive TokKind where
  | whiteSpace
  | blockComment
  | doubleLBrace
  | doubleRBrace
  | childOrSelfOf
  | descendantOrSelfOf
  | childOf
  | parentOrSelfOf
  | ancestorOrSelfOf
  | parentOf
  | notEquals
  | lessThanOrEquals
  | greaterThanOrEquals
  | equals
  | descendantOf
  | ancestorOf
  | memberOf
  | wildcard
  | andK
  | orK
  | minusK
  | descendantOrSelfOfKeyword
  | descendantOfKeyword
  | childOrSelfOfKeyword
  | childOfKeyword
  | ancestorOrSelfOfKeyword
  | ancestorOfKeyword
  | parentOrSelfOfKeyword
  | parentOfKeyword
  | memberOfKeyword
  | reverseOf
  | definitionStatusId
  | effectiveTime
  | moduleId
  | typeKeyword
  | language
  | dialect
  | termKeyword
  | active
  | matchK
  | wildK
  | preferred
  | acceptable
  | primitive
  | defined
  | trueK
  | falseK
  | lparen
  | rparen
  | lbrace
  | rbrace
  | lbracket
  | rbracket
  | colon
  | comma
  | hash
  | dotDot
  | dot
  | termString
  | pipe
  | alternateIdCode
  | decimalValue
  | signedInteger
  | sctId
  | integer
  | stringLiteral
  | dialectAlias
  | identifier
deriving DecidableEq, Repr

/-- A lexed token: kind, matched text and start offset, the fields of a
chevrotain `IToken` that the parser and visitor consume. -/
structure Tok where
  kind : TokKind
  image : String
  startOffset : Nat
deriving DecidableEq, Repr

/-- ASCII digit test (JS `\d`). -/
def isDigitCh (c : Char) : Bool := '0' ≤ c && c ≤ '9'

/-- ASCII lowercase test (JS `[a-z]`). -/
def isLowerCh (c : Char) : Bool := 'a' ≤ c && c ≤ 'z'

/-- ASCII uppercase test (JS `[A-Z]`). -/
def isUpperCh (c : Char) : Bool := 'A' ≤ c && c ≤ 'Z'

/-- ASCII letter test (JS `[a-zA-Z]`). -/
def isAlphaCh (c : Char) : Bool := isLowerCh c || isUpperCh c

/-- Alphanumeric test (JS `[a-zA-Z0-9]`). -/
def isAlnumCh (c : Char) : Bool := isAlphaCh c || isDigitCh c

/-- Identifier continuation character (JS `[a-zA-Z0-9_]`). -/
def isIdentRestCh (c : Char) : Bool := isAlnumCh c || c = '_'

/-- JS `\s` whitespace class (the members relevant to ASCII input). -/
def isSpaceCh (c : Char) : Bool :=
  c = ' ' || c = '\t' || c = '\n' || c = '\r' || c = '\x0b' || c = '\x0c'

/-- Length of the leading run of characters satisfying `p`. -/
def runLen (p : Char → Bool) : List Char → Nat
  | [] => 0
  | c :: cs => if p c then runLen p cs + 1 else 0

/-- Match the exact character sequence `pat` at the head of `cs`,
returning its length. -/
def matchLit (pat : List Char) (cs : List Char) : Option Nat :=
  match pat, cs with
  | [], _ => some 0
  | _ :: _, [] => none
  | p :: ps, c :: rest =>
      if c = p then (matchLit ps rest).map (· + 1) else none

/-- Case-insensitive variant of `matchLit` (for the `/AND/i`-style
patterns; `pat` is given lowercase). -/
def matchLitCI (pat : List Char) (cs : List Char) : Option Nat :=
  match pat, cs with
  | [], _ => some 0
  | _ :: _, [] => none
  | p :: ps, c :: rest =>
      if c.toLower = p then (matchLitCI ps rest).map (· + 1) else none

/-- Match a block comment `/* ... */` (non-greedy body), returning the
total matched length. -/
def matchBlockComment (cs : List Char) : Option Nat :=
  match cs with
  | '/' :: '*' :: rest => (closeLen rest).map (· + 2)
  | _ => none
where
  /-- Length up to and including the closing star-slash. -/
  closeLen : List Char → Option Nat
    | [] => none
    | '*' :: '/' :: _ => some 2
    | _ :: rest => (closeLen rest).map (· + 1)

/-- Match a string literal `"([^"\\]|\\.)*"`, returning the matched
length including both quotes. -/
def matchStringLit (cs : List Char) : Option Nat :=
  match cs with
  | '"' :: rest => (bodyLen rest).map (· + 1)
  | _ => none
where
  /-- Length of the body plus the closing quote. -/
  bodyLen : List Char → Option Nat
    | [] => none
    | '"' :: _ => some 1
    | '\\' :: _ :: rest => (bodyLen rest).map (· + 2)
    | '\\' :: [] => none
    | _ :: rest => (bodyLen rest).map (· + 1)

/-- Match a term string `\|[^|]*\|`. -/
def matchTermString (cs : List Char) : Option Nat :=
  match cs with
  | '|' :: rest =>
      let n := runLen (fun c => !(c = '|')) rest
      match rest.drop n with
      | '|' :: _ => some (n + 2)
      | _ => none
  | _ => none

/-- Total length of the (greedy) sequence of `-[a-zA-Z0-9]+` groups in the
alternate-identifier-code pattern; the fuel exceeds the input length at
every call site, and each group consumes at least two characters. -/
def altIdGroups : Nat → List Char → Nat
  | 0, _ => 0
  | fuel + 1, '-' :: rest =>
      let a := runLen isAlnumCh rest
      if a = 0 then 0 else 1 + a + altIdGroups fuel (rest.drop a)
  | _ + 1, _ => 0

/-- Match an alternate identifier code `\d+(?:-[a-zA-Z0-9]+)+`. -/
def matchAltIdCode (cs : List Char) : Option Nat :=
  let d := runLen isDigitCh cs
  if d = 0 then none
  else
    match altIdGroups cs.length (cs.drop d) with
    | 0 => none
    | g => some (d + g)

/-- Match a decimal value `[+-]?\d+\.(?!\d{6})\d+`: optional sign, digits,
a dot whose fractional part has fewer than 6 digits (the negative
lookahead preventing dotted concept-ID pairs from lexing as decimals). -/
def matchDecimalValue (cs : List Char) : Option Nat :=
  let sgn := if cs.head? = some '+' || cs.head? = some '-' then 1 else 0
  let rest := cs.drop sgn
  let d := runLen isDigitCh rest
  if d = 0 then none
  else
    match rest.drop d with
    | '.' :: frac =>
        let f := runLen isDigitCh frac
        if f = 0 then none
        else if 6 ≤ f then none
        else some (sgn + d + 1 + f)
    | _ => none

/-- Match a signed integer `[+-]\d+`. -/
def matchSignedInteger (cs : List Char) : Option Nat :=
  match cs with
  | '+' :: rest => let d := runLen isDigitCh rest; if d = 0 then none else some (d + 1)
  | '-' :: rest => let d := runLen isDigitCh rest; if d = 0 then none else some (d + 1)
  | _ => none

/-- Match a concept identifier `\d{6,18}` (greedy, up to 18 digits). -/
def matchSctId (cs : List Char) : Option Nat :=
  let d := runLen isDigitCh cs
  if d < 6 then none else some (min d 18)

/-- Match an unsigned integer `\d+`. -/
def matchInteger (cs : List Char) : Option Nat :=
  let d := runLen isDigitCh cs
  if d = 0 then none else some d

/-- Match a dialect alias `[a-z]{2}-[A-Z]{2}`. -/
def matchDialectAlias (cs : List Char) : Option Nat :=
  match cs with
  | a :: b :: '-' :: c :: d :: _ =>
      if isLowerCh a && isLowerCh b && isUpperCh c && isUpperCh d then some 5 else none
  | _ => none

/-- Match an identifier `[a-zA-Z][a-zA-Z0-9_]*`. -/
def matchIdentifier (cs : List Char) : Option Nat :=
  match cs with
  | c :: rest => if isAlphaCh c then some (1 + runLen isIdentRestCh rest) else none
  | [] => none

/-- Attempt the pattern of one token kind at the head of the input,
returning the matched length.  Each case realizes the regular expression
of the corresponding `createToken` in `src/parser/lexer.ts`. -/
def matchTok (k : TokKind) (cs : List Char) : Option Nat :=
  match k with
  | .whiteSpace => let n := runLen isSpaceCh cs; if n = 0 then none else some n
  | .blockComment => matchBlockComment cs
  | .doubleLBrace => matchLit ['\x7b', '\x7b'] cs
  | .doubleRBrace => matchLit ['\x7d', '\x7d'] cs
  | .childOrSelfOf => matchLit ['<', '<', '!'] cs
  | .descendantOrSelfOf => matchLit ['<', '<'] cs
  | .childOf => matchLit ['<', '!'] cs
  | .parentOrSelfOf => matchLit ['>', '>', '!'] cs
  | .ancestorOrSelfOf => matchLit ['>', '>'] cs
  | .parentOf => matchLit ['>', '!'] cs
  | .notEquals => matchLit ['!', '='] cs
  | .lessThanOrEquals => matchLit ['<', '='] cs
  | .greaterThanOrEquals => matchLit ['>', '='] cs
  | .equals => matchLit ['='] cs
  | .descendantOf => matchLit ['<'] cs
  | .ancestorOf => matchLit ['>'] cs
  | .memberOf => matchLit ['^'] cs
  | .wildcard => matchLit ['*'] cs
  | .andK => matchLitCI ['a', 'n', 'd'] cs
  | .orK => matchLitCI ['o', 'r'] cs
  | .minusK => matchLitCI ['m', 'i', 'n', 'u', 's'] cs
  | .descendantOrSelfOfKeyword => matchLit "descendantOrSelfOf".toList cs
  | .descendantOfKeyword => matchLit "descendantOf".toList cs
  | .childOrSelfOfKeyword => matchLit "childOrSelfOf".toList cs
  | .childOfKeyword => matchLit "childOf".toList cs
  | .ancestorOrSelfOfKeyword => matchLit "ancestorOrSelfOf".toList cs
  | .ancestorOfKeyword => matchLit "ancestorOf".toList cs
  | .parentOrSelfOfKeyword => matchLit "parentOrSelfOf".toList cs
  | .parentOfKeyword => matchLit "parentOf".toList cs
  | .memberOfKeyword => matchLit "memberOf".toList cs
  | .reverseOf => matchLitCI "reverseof".toList cs
  | .definitionStatusId => matchLit "definitionStatusId".toList cs
  | .effectiveTime => matchLit "effectiveTime".toList cs
  | .moduleId => matchLit "moduleId".toList cs
  | .typeKeyword =>
      match matchLit "typeId".toList cs with
      | some n => some n
      | none => matchLit "type".toList cs
  | .language => matchLit "language".toList cs
  | .dialect =>
      match matchLit "dialectId".toList cs with
      | some n => some n
      | none => matchLit "dialect".toList cs
  | .termKeyword => matchLit "term".toList cs
  | .active => matchLit "active".toList cs
  | .matchK => matchLit "match".toList cs
  | .wildK => matchLit "wild".toList cs
  | .preferred => matchLit "PREFERRED".toList cs
  | .acceptable => matchLit "ACCEPTABLE".toList cs
  | .primitive => matchLit "PRIMITIVE".toList cs
  | .defined => matchLit "DEFINED".toList cs
  | .trueK => matchLit "true".toList cs
  | .falseK => matchLit "false".toList cs
  | .lparen => matchLit ['('] cs
  | .rparen => matchLit [')'] cs
  | .lbrace => matchLit ['\x7b'] cs
  | .rbrace => matchLit ['\x7d'] cs
  | .lbracket => matchLit ['['] cs
  | .rbracket => matchLit [']'] cs
  | .colon => matchLit [':'] cs
  | .comma => matchLit [','] cs
  | .hash => matchLit ['#'] cs
  | .dotDot => matchLit ['.', '.'] cs
  | .dot => matchLit ['.'] cs
  | .termString => matchTermString cs
  | .pipe => matchLit ['|'] cs
  | .alternateIdCode => matchAltIdCode cs
  | .decimalValue => matchDecimalValue cs
  | .signedInteger => matchSignedInteger cs
  | .sctId => matchSctId cs
  | .integer => matchInteger cs
  | .stringLiteral => matchStringLit cs
  | .dialectAlias => matchDialectAlias cs
  | .identifier => matchIdentifier cs

/-- The token vocabulary in the exact precedence order of the `allTokens`
array in `src/parser/lexer.ts`; chevrotain commits to the first pattern in
this order that matches at the current position. -/
def allTokens : List TokKind :=
  [ .whiteSpace, .blockComment,
    .doubleLBrace, .doubleRBrace,
    .childOrSelfOf, .descendantOrSelfOf, .childOf,
    .parentOrSelfOf, .ancestorOrSelfOf, .parentOf,
    .notEquals, .lessThanOrEquals, .greaterThanOrEquals, .equals,
    .descendantOf, .ancestorOf, .memberOf, .wildcard,
    .andK, .orK, .minusK,
    .descendantOrSelfOfKeyword, .descendantOfKeyword,
    .childOrSelfOfKeyword, .childOfKeyword,
    .ancestorOrSelfOfKeyword, .ancestorOfKeyword,
    .parentOrSelfOfKeyword, .parentOfKeyword,
    .memberOfKeyword, .reverseOf,
    .definitionStatusId, .effectiveTime, .moduleId, .typeKeyword,
    .language, .dialect, .termKeyword, .active, .matchK, .wildK,
    .preferred, .acceptable, .primitive, .defined, .trueK, .falseK,
    .lparen, .rparen, .lbrace, .rbrace, .lbracket, .rbracket,
    .colon, .comma, .hash, .dotDot, .dot,
    .termString, .pipe,
    .alternateIdCode,
    .decimalValue, .signedInteger,
    .sctId, .integer,
    .stringLiteral,
    .dialectAlias,
    .identifier ]

/-- First token kind in `allTokens` order whose pattern matches at the
head of `cs`, with the matched length. -/
def firstMatch (cs : List Char) : List TokKind → Option (TokKind × Nat)
  | [] => none
  | k :: ks =>
      match matchTok k cs with
      | some n => some (k, n)
      | none => firstMatch cs ks

/-- A lexing error: message and offending offset. -/
structure LexErr where
  message : String
  offset : Nat
deriving DecidableEq, Repr

/-- Result of tokenization: the token stream (whitespace and comments
skipped) and any lexing errors. -/
structure LexResult where
  tokens : List Tok
  errors : List LexErr
deriving DecidableEq, Repr

/-- Scanner loop: at each position take the first matching pattern in
`allTokens` order; skip whitespace and comments; on an unmatchable
character record an error and resume one character later (chevrotain's
behaviour).  `fuel` bounds the number of steps and exceeds the input
length on every call from `tokenize`. -/
def lexGo : Nat → List Char → Nat → List Tok → List LexErr → LexResult
  | _, [], _, toks, errs => ⟨toks.reverse, errs.reverse⟩
  | 0, _, _, toks, errs =>
      ⟨toks.reverse, (⟨"lexer fuel exhausted", 0⟩ :: errs).reverse⟩
  | fuel + 1, cs, pos, toks, errs =>
      match firstMatch cs allTokens with
      | some (k, n) =>
          let n := max n 1
          let image : String := ⟨cs.take n⟩
          if k = .whiteSpace || k = .blockComment then
            lexGo fuel (cs.drop n) (pos + n) toks errs
          else
            lexGo fuel (cs.drop n) (pos + n) (⟨k, image, pos⟩ :: toks) errs
      | none =>
          lexGo fuel (cs.drop 1) (pos + 1)
            toks (⟨"unexpected character", pos⟩ :: errs)

/-- Tokenize ECL source text (`tokenize` in `src/parser/lexer.ts`). -/
def tokenize (text : String) : LexResult :=
  lexGo (text.toList.length + 1) text.toList 0 [] []

end Ecl

namespace Ecl

/-- Concept-reference CST node (`eclConceptReference`): an `SctId` token and
an optional `TermString` token. -/
structure CstConceptRef where
  sct : Tok
  term : Option Tok
deriving Repr

/-- Code alternative of `alternateIdentifier`: which token alternative the
grammar consumed after the hash. -/
inductive CstAltCode where
  | strLit (t : Tok)
  | altCode (t : Tok)
  | sct (t : Tok)
  | ident (t : Tok)
deriving Repr

/-- Cardinality CST node (`cardinality`): the two bound tokens in textual
order, each an `Integer` or `Wildcard` token. -/
structure CstCard where
  lo : Tok
  hi : Tok
deriving Repr

/-- One filter inside double braces (`filter`), dispatching per
`src/parser/parser.ts` on the leading keyword; the `filter` rule has seven
alternatives (there is no effective-time alternative in the dispatch). -/
inductive CstFilterOne where
  | termF (op : Option Tok) (strs : List Tok)
  | langF (aliasTok : Tok)
  | typeF (kw : Option Tok) (ref : Option CstConceptRef)
  | dialectF (aliasTok : Option Tok) (ref : Option CstConceptRef) (accept : Option Tok)
  | moduleF (ref : CstConceptRef)
  | activeF (isTrue : Bool)
  | defStatusF (kw : Option Tok) (ref : Option CstConceptRef)
deriving Repr

/-- Filter constraint CST node (`filterConstraint` wrapping
`filterExpressionConstraint`): the filters and the separator tokens between
them in textual order. -/
structure CstFilterConstraint where
  filters : List CstFilterOne
  seps : List Tok
deriving Repr

mutual

/-- CST of `expressionConstraint`: first operand and the
(boolean-operator, operand) continuations. -/
inductive CstExpr where
  | mk (first : CstSimple) (rest : List (Tok × CstSimple))

/-- CST of `simpleOrRefinedExpression`. -/
inductive CstSimple where
  | mk (sub : CstSub) (refinement : Option CstRefinement)

/-- CST of `subExpressionConstraint`: optional constraint-operator token,
focus concept, filter constraints, dotted continuations. -/
inductive CstSub where
  | mk (op : Option Tok) (focus : CstFocus) (filters : List CstFilterConstraint)
       (dotted : List CstAttrName)

/-- CST of `eclFocusConcept`. -/
inductive CstFocus where
  | conceptRef (r : CstConceptRef)
  | wildcard
  | nested (inner : CstExpr)
  | altId (scheme : Tok) (code : CstAltCode)

/-- CST of `eclRefinement`: items and the separator tokens (AND/OR/comma)
between them in textual order. -/
inductive CstRefinement where
  | mk (items : List CstRefItem) (seps : List Tok)

/-- CST of `eclRefinementItem`. -/
inductive CstRefItem where
  | mk (card : Option CstCard) (body : CstRefBody)

/-- Body of a refinement item: attribute group or sub-attribute set. -/
inductive CstRefBody where
  | group (set : CstAttrSet)
  | sub (s : CstSubAttrSet)

/-- CST of `subAttributeSet`: a single attribute, or a parenthesized
attribute set entered through the backtracking gate. -/
inductive CstSubAttrSet where
  | attr (a : CstAttribute)
  | parenSet (set : CstAttrSet)

/-- CST of `eclAttributeSet`. -/
inductive CstAttrSet where
  | mk (items : List CstSubAttrSet) (seps : List Tok)

/-- CST of `eclAttribute`: optional reverse-flag token, name, comparator
token and value. -/
inductive CstAttribute where
  | mk (reverse : Option Tok) (name : CstAttrName) (comp : Tok) (value : CstAttrValue)

/-- CST of `eclAttributeName` (sub-expression without dotted paths). -/
inductive CstAttrName where
  | mk (op : Option Tok) (focus : CstFocus) (filters : List CstFilterConstraint)

/-- CST of an attribute value: a concrete literal token, a sub-expression,
or the hash-prefixed numeric path (`Hash` followed by `numericValue`). -/
inductive CstAttrValue where
  | lit (t : Tok)
  | subExpr (s : CstSub)
  | hashNum (t : Tok)

end

end Ecl

namespace Ecl


/-- Kind of the next token, if any. -/
def peekKind : List Tok → Option TokKind
  | [] => none
  | t :: _ => some t.kind

/-- Consume one token of the given kind or fail. -/
def expectK (k : TokKind) (ts : List Tok) : Except String (Tok × List Tok) :=
  match ts with
  | t :: rest =>
      if t.kind = k then .ok (t, rest)
      else .error "MismatchedTokenException"
  | [] => .error "MismatchedTokenException: unexpected end of input"

/-- Token kinds that can start the `constraintOperator` rule. -/
def isConstraintOpKind (k : TokKind) : Bool :=
  match k with
  | .childOrSelfOf | .descendantOrSelfOf | .childOf | .descendantOf
  | .parentOrSelfOf | .ancestorOrSelfOf | .parentOf | .ancestorOf
  | .memberOf
  | .descendantOrSelfOfKeyword | .descendantOfKeyword
  | .childOrSelfOfKeyword | .childOfKeyword
  | .ancestorOrSelfOfKeyword | .ancestorOfKeyword
  | .parentOrSelfOfKeyword | .parentOfKeyword
  | .memberOfKeyword => true
  | _ => false

/-- Token kinds accepted by the `comparator` rule. -/
def isComparatorKind (k : TokKind) : Bool :=
  match k with
  | .equals | .notEquals | .lessThanOrEquals | .greaterThanOrEquals
  | .descendantOf | .ancestorOf => true
  | _ => false

/-- Boolean-operator and list-separator kinds (`AND`, `OR`, comma). -/
def isSepKind (k : TokKind) : Bool :=
  match k with
  | .andK | .orK | .comma => true
  | _ => false

/-- Parse `eclConceptReference`: an `SctId` token and an optional
`TermString` token. -/
def pConceptRef (ts : List Tok) : Except String (CstConceptRef × List Tok) := do
  let (sct, ts) ← expectK .sctId ts
  match ts with
  | t :: rest =>
      if t.kind = .termString then .ok (⟨sct, some t⟩, rest)
      else .ok (⟨sct, none⟩, ts)
  | [] => .ok (⟨sct, none⟩, ts)

/-- Parse `alternateIdentifier`: identifier, hash, then one of
string literal, alternate-ID code, concept ID, identifier. -/
def pAltId (ts : List Tok) : Except String ((Tok × CstAltCode) × List Tok) := do
  let (scheme, ts) ← expectK .identifier ts
  let (_, ts) ← expectK .hash ts
  match ts with
  | t :: rest =>
      match t.kind with
      | .stringLiteral => .ok ((scheme, .strLit t), rest)
      | .alternateIdCode => .ok ((scheme, .altCode t), rest)
      | .sctId => .ok ((scheme, .sct t), rest)
      | .identifier => .ok ((scheme, .ident t), rest)
      | _ => .error "NoViableAltException: alternateIdentifier"
  | [] => .error "NoViableAltException: alternateIdentifier"

/-- Parse `cardinality`: `[`, integer or wildcard, `..`, integer or
wildcard, `]`. -/
def pCard (ts : List Tok) : Except String (CstCard × List Tok) := do
  let (_, ts) ← expectK .lbracket ts
  match ts with
  | lo :: ts =>
      if lo.kind = .integer || lo.kind = .wildcard then do
        let (_, ts) ← expectK .dotDot ts
        match ts with
        | hi :: ts =>
            if hi.kind = .integer || hi.kind = .wildcard then do
              let (_, ts) ← expectK .rbracket ts
              .ok (⟨lo, hi⟩, ts)
            else .error "NoViableAltException: cardinality"
        | [] => .error "NoViableAltException: cardinality"
      else .error "NoViableAltException: cardinality"
  | [] => .error "NoViableAltException: cardinality"

/-- Parse `numericValue`: decimal, signed integer or integer token. -/
def pNumericValue (ts : List Tok) : Except String (Tok × List Tok) :=
  match ts with
  | t :: rest =>
      if t.kind = .decimalValue || t.kind = .signedInteger || t.kind = .integer then
        .ok (t, rest)
      else .error "NoViableAltException: numericValue"
  | [] => .error "NoViableAltException: numericValue"

/-- Parse `termFilter`: `term`, `=`, optional (`match`|`wild`) `:`, then a
string literal or a parenthesized nonempty string-literal list. -/
def pTermFilter (ts : List Tok) : Except String (CstFilterOne × List Tok) := do
  let (_, ts) ← expectK .termKeyword ts
  let (_, ts) ← expectK .equals ts
  let (op, ts) ←
    match ts with
    | t :: rest =>
        if t.kind = .matchK || t.kind = .wildK then do
          let (_, rest) ← expectK .colon rest
          pure (some t, rest)
        else pure (none, ts)
    | [] => pure (none, ts)
  match ts with
  | t :: rest =>
      if t.kind = .lparen then do
        let (s1, rest) ← expectK .stringLiteral rest
        let (more, rest) := collectStrings rest []
        let (_, rest) ← expectK .rparen rest
        .ok (.termF op (s1 :: more), rest)
      else do
        let (s, ts) ← expectK .stringLiteral ts
        .ok (.termF op [s], ts)
  | [] => .error "NoViableAltException: termFilter"
where
  /-- Greedily collect further string-literal tokens. -/
  collectStrings : List Tok → List Tok → (List Tok × List Tok)
    | t :: rest, acc =>
        if t.kind = .stringLiteral then collectStrings rest (acc ++ [t])
        else (acc, t :: rest)
    | [], acc => (acc, [])

/-- Parse `languageFilter`: `language`, `=`, dialect alias. -/
def pLanguageFilter (ts : List Tok) : Except String (CstFilterOne × List Tok) := do
  let (_, ts) ← expectK .language ts
  let (_, ts) ← expectK .equals ts
  let (a, ts) ← expectK .dialectAlias ts
  .ok (.langF a, ts)

/-- Parse `typeFilter`: `type`/`typeId`, `=`, keyword or concept
reference. -/
def pTypeFilter (ts : List Tok) : Except String (CstFilterOne × List Tok) := do
  let (_, ts) ← expectK .typeKeyword ts
  let (_, ts) ← expectK .equals ts
  match ts with
  | t :: rest =>
      if t.kind = .preferred || t.kind = .acceptable then
        .ok (.typeF (some t) none, rest)
      else do
        let (r, ts) ← pConceptRef ts
        .ok (.typeF none (some r), ts)
  | [] => .error "NoViableAltException: typeFilter"

/-- Parse `dialectFilter`: `dialect`/`dialectId`, `=`, alias or concept
reference, optional parenthesized acceptability. -/
def pDialectFilter (ts : List Tok) : Except String (CstFilterOne × List Tok) := do
  let (_, ts) ← expectK .dialect ts
  let (_, ts) ← expectK .equals ts
  let (a, r, ts) ←
    match ts with
    | t :: rest =>
        if t.kind = .dialectAlias then pure (some t, none, rest)
        else do
          let (r, ts) ← pConceptRef ts
          pure (none, some r, ts)
    | [] => .error "NoViableAltException: dialectFilter"
  match ts with
  | t :: rest =>
      if t.kind = .lparen then
        match rest with
        | u :: rest2 =>
            if u.kind = .preferred || u.kind = .acceptable then do
              let (_, rest3) ← expectK .rparen rest2
              .ok (.dialectF a r (some u), rest3)
            else .error "NoViableAltException: dialectFilter"
        | [] => .error "NoViableAltException: dialectFilter"
      else .ok (.dialectF a r none, ts)
  | [] => .ok (.dialectF a r none, ts)

/-- Parse `moduleFilter`: `moduleId`, `=`, concept reference. -/
def pModuleFilter (ts : List Tok) : Except String (CstFilterOne × List Tok) := do
  let (_, ts) ← expectK .moduleId ts
  let (_, ts) ← expectK .equals ts
  let (r, ts) ← pConceptRef ts
  .ok (.moduleF r, ts)

/-- Parse `activeFilter`: `active`, `=`, `true` or `false`. -/
def pActiveFilter (ts : List Tok) : Except String (CstFilterOne × List Tok) := do
  let (_, ts) ← expectK .active ts
  let (_, ts) ← expectK .equals ts
  match ts with
  | t :: rest =>
      if t.kind = .trueK then .ok (.activeF true, rest)
      else if t.kind = .falseK then .ok (.activeF false, rest)
      else .error "NoViableAltException: activeFilter"
  | [] => .error "NoViableAltException: activeFilter"

/-- Parse `definitionStatusFilter`: `definitionStatusId`, `=`, keyword or
concept reference. -/
def pDefStatusFilter (ts : List Tok) : Except String (CstFilterOne × List Tok) := do
  let (_, ts) ← expectK .definitionStatusId ts
  let (_, ts) ← expectK .equals ts
  match ts with
  | t :: rest =>
      if t.kind = .primitive || t.kind = .defined then
        .ok (.defStatusF (some t) none, rest)
      else do
        let (r, ts) ← pConceptRef ts
        .ok (.defStatusF none (some r), ts)
  | [] => .error "NoViableAltException: definitionStatusFilter"

/-- Parse `filter`: dispatch on the leading keyword to one of the seven
filter alternatives. -/
def pFilterOne (ts : List Tok) : Except String (CstFilterOne × List Tok) :=
  match peekKind ts with
  | some .termKeyword => pTermFilter ts
  | some .language => pLanguageFilter ts
  | some .typeKeyword => pTypeFilter ts
  | some .dialect => pDialectFilter ts
  | some .moduleId => pModuleFilter ts
  | some .active => pActiveFilter ts
  | some .definitionStatusId => pDefStatusFilter ts
  | _ => .error "NoViableAltException: filter"

/-- Loop of `filterExpressionConstraint`: further `(AND|OR|,) filter`
steps.  `fuel` bounds iterations. -/
def pFilterMany (fuel : Nat) (ts : List Tok) (fs : List CstFilterOne)
    (seps : List Tok) : Except String ((List CstFilterOne × List Tok) × List Tok) :=
  match fuel with
  | 0 => .error "fuel exhausted"
  | fuel + 1 =>
      match ts with
      | t :: rest =>
          if isSepKind t.kind then
            match pFilterOne rest with
            | .ok (f, ts2) => pFilterMany fuel ts2 (fs ++ [f]) (seps ++ [t])
            | .error e => .error e
          else .ok ((fs, seps), ts)
      | [] => .ok ((fs, seps), ts)

/-- Parse `filterConstraint`: double-brace delimited
`filterExpressionConstraint`. -/
def pFilterConstraint (ts : List Tok) : Except String (CstFilterConstraint × List Tok) := do
  let (_, ts) ← expectK .doubleLBrace ts
  let (f1, ts) ← pFilterOne ts
  let ((fs, seps), ts) ← pFilterMany (ts.length + 1) ts [f1] []
  let (_, ts) ← expectK .doubleRBrace ts
  .ok (⟨fs, seps⟩, ts)

end Ecl

namespace Ecl

mutual

/-- Parse `expressionConstraint`: a `simpleOrRefinedExpression` followed by
`(booleanOperator simpleOrRefinedExpression)*`. -/
def pExpr (fuel : Nat) (ts : List Tok) : Except String (CstExpr × List Tok) :=
  match fuel with
  | 0 => .error "fuel exhausted"
  | fuel + 1 => do
      let (first, ts) ← pSimple fuel ts
      let (rest, ts) ← pExprMany fuel ts []
      .ok (.mk first rest, ts)

  termination_by structural fuel
/-- Continuation loop of `expressionConstraint`. -/
def pExprMany (fuel : Nat) (ts : List Tok) (acc : List (Tok × CstSimple)) :
    Except String (List (Tok × CstSimple) × List Tok) :=
  match fuel with
  | 0 => .error "fuel exhausted"
  | fuel + 1 =>
      match ts with
      | t :: rest =>
          if t.kind = .andK || t.kind = .orK || t.kind = .minusK then do
            let (s, ts2) ← pSimple fuel rest
            pExprMany fuel ts2 (acc ++ [(t, s)])
          else .ok (acc, ts)
      | [] => .ok (acc, ts)

  termination_by structural fuel
/-- Parse `simpleOrRefinedExpression`: a `subExpressionConstraint` with an
optional `: eclRefinement`. -/
def pSimple (fuel : Nat) (ts : List Tok) : Except String (CstSimple × List Tok) :=
  match fuel with
  | 0 => .error "fuel exhausted"
  | fuel + 1 => do
      let (sub, ts) ← pSub fuel ts
      match ts with
      | t :: rest =>
          if t.kind = .colon then do
            let (r, ts2) ← pRefinement fuel rest
            .ok (.mk sub (some r), ts2)
          else .ok (.mk sub none, ts)
      | [] => .ok (.mk sub none, ts)

  termination_by structural fuel
/-- Parse `subExpressionConstraint`: optional constraint operator, focus
concept, filter constraints, dotted attribute continuations. -/
def pSub (fuel : Nat) (ts : List Tok) : Except String (CstSub × List Tok) :=
  match fuel with
  | 0 => .error "fuel exhausted"
  | fuel + 1 => do
      let (op, ts) ←
        match ts with
        | t :: rest =>
            if isConstraintOpKind t.kind then pure (some t, rest) else pure (none, ts)
        | [] => pure (none, ts)
      let (focus, ts) ← pFocus fuel ts
      let (filters, ts) ← pFiltersLoop fuel ts []
      let (dotted, ts) ← pDotsLoop fuel ts []
      .ok (.mk op focus filters dotted, ts)

  termination_by structural fuel
/-- Loop collecting `filterConstraint*` (each starts with `{{`). -/
def pFiltersLoop (fuel : Nat) (ts : List Tok) (acc : List CstFilterConstraint) :
    Except String (List CstFilterConstraint × List Tok) :=
  match fuel with
  | 0 => .error "fuel exhausted"
  | fuel + 1 =>
      match peekKind ts with
      | some .doubleLBrace => do
          let (f, ts2) ← pFilterConstraint ts
          pFiltersLoop fuel ts2 (acc ++ [f])
      | _ => .ok (acc, ts)

  termination_by structural fuel
/-- Loop collecting `(Dot eclAttributeName)*`. -/
def pDotsLoop (fuel : Nat) (ts : List Tok) (acc : List CstAttrName) :
    Except String (List CstAttrName × List Tok) :=
  match fuel with
  | 0 => .error "fuel exhausted"
  | fuel + 1 =>
      match ts with
      | t :: rest =>
          if t.kind = .dot then do
            let (n, ts2) ← pAttrName fuel rest
            pDotsLoop fuel ts2 (acc ++ [n])
          else .ok (acc, ts)
      | [] => .ok (acc, ts)

  termination_by structural fuel
/-- Parse `eclFocusConcept`: concept reference, wildcard, parenthesized
expression constraint, or alternate identifier. -/
def pFocus (fuel : Nat) (ts : List Tok) : Except String (CstFocus × List Tok) :=
  match fuel with
  | 0 => .error "fuel exhausted"
  | fuel + 1 =>
      match peekKind ts with
      | some .sctId => do
          let (r, ts) ← pConceptRef ts
          .ok (.conceptRef r, ts)
      | some .wildcard =>
          match ts with
          | _ :: rest => .ok (.wildcard, rest)
          | [] => .error "NoViableAltException: eclFocusConcept"
      | some .lparen => do
          let (_, ts) ← expectK .lparen ts
          let (e, ts) ← pExpr fuel ts
          let (_, ts) ← expectK .rparen ts
          .ok (.nested e, ts)
      | some .identifier => do
          let ((scheme, code), ts) ← pAltId ts
          .ok (.altId scheme code, ts)
      | _ => .error "NoViableAltException: eclFocusConcept"

  termination_by structural fuel
/-- Parse `eclRefinement`: first item then
`((AND|OR|,) eclRefinementItem)*`. -/
def pRefinement (fuel : Nat) (ts : List Tok) : Except String (CstRefinement × List Tok) :=
  match fuel with
  | 0 => .error "fuel exhausted"
  | fuel + 1 => do
      let (i1, ts) ← pRefItem fuel ts
      let ((items, seps), ts) ← pRefMany fuel ts [i1] []
      .ok (.mk items seps, ts)

  termination_by structural fuel
/-- Continuation loop of `eclRefinement`; a separator is consumed only if a
refinement item follows (the adaptive-lookahead decision of the generated
grammar, realized as trial parse with rollback). -/
def pRefMany (fuel : Nat) (ts : List Tok) (items : List CstRefItem) (seps : List Tok) :
    Except String ((List CstRefItem × List Tok) × List Tok) :=
  match fuel with
  | 0 => .error "fuel exhausted"
  | fuel + 1 =>
      match ts with
      | t :: rest =>
          if isSepKind t.kind then
            match pRefItem fuel rest with
            | .ok (i, ts2) => pRefMany fuel ts2 (items ++ [i]) (seps ++ [t])
            | .error _ => .ok ((items, seps), ts)
          else .ok ((items, seps), ts)
      | [] => .ok ((items, seps), ts)

  termination_by structural fuel
/-- Parse `eclRefinementItem`: optional cardinality, then attribute group
or sub-attribute set. -/
def pRefItem (fuel : Nat) (ts : List Tok) : Except String (CstRefItem × List Tok) :=
  match fuel with
  | 0 => .error "fuel exhausted"
  | fuel + 1 => do
      let (card, ts) ←
        match peekKind ts with
        | some .lbracket => do
            let (c, ts2) ← pCard ts
            pure (some c, ts2)
        | _ => pure (none, ts)
      match peekKind ts with
      | some .lbrace => do
          let (_, ts) ← expectK .lbrace ts
          let (s, ts) ← pAttrSet fuel ts
          let (_, ts) ← expectK .rbrace ts
          .ok (.mk card (.group s), ts)
      | _ => do
          let (s, ts) ← pSubAttrSet fuel ts
          .ok (.mk card (.sub s), ts)

  termination_by structural fuel
/-- Parse `subAttributeSet`: the parenthesized attribute-set alternative is
tried first behind the backtracking gate, falling back to a single
attribute. -/
def pSubAttrSet (fuel : Nat) (ts : List Tok) : Except String (CstSubAttrSet × List Tok) :=
  match fuel with
  | 0 => .error "fuel exhausted"
  | fuel + 1 =>
      match pParenAttrSet fuel ts with
      | .ok (s, ts2) => .ok (.parenSet s, ts2)
      | .error _ => do
          let (a, ts) ← pAttribute fuel ts
          .ok (.attr a, ts)

  termination_by structural fuel
/-- Parse `parenthesizedAttributeSet`: `(`, attribute set, `)`. -/
def pParenAttrSet (fuel : Nat) (ts : List Tok) : Except String (CstAttrSet × List Tok) :=
  match fuel with
  | 0 => .error "fuel exhausted"
  | fuel + 1 => do
      let (_, ts) ← expectK .lparen ts
      let (s, ts) ← pAttrSet fuel ts
      let (_, ts) ← expectK .rparen ts
      .ok (s, ts)

  termination_by structural fuel
/-- Parse `eclAttributeSet`: first sub-attribute set then
`((AND|OR|,) subAttributeSet)*`. -/
def pAttrSet (fuel : Nat) (ts : List Tok) : Except String (CstAttrSet × List Tok) :=
  match fuel with
  | 0 => .error "fuel exhausted"
  | fuel + 1 => do
      let (i1, ts) ← pSubAttrSet fuel ts
      let ((items, seps), ts) ← pAttrSetMany fuel ts [i1] []
      .ok (.mk items seps, ts)

  termination_by structural fuel
/-- Continuation loop of `eclAttributeSet` (trial parse with rollback, as
for `pRefMany`). -/
def pAttrSetMany (fuel : Nat) (ts : List Tok) (items : List CstSubAttrSet) (seps : List Tok) :
    Except String ((List CstSubAttrSet × List Tok) × List Tok) :=
  match fuel with
  | 0 => .error "fuel exhausted"
  | fuel + 1 =>
      match ts with
      | t :: rest =>
          if isSepKind t.kind then
            match pSubAttrSet fuel rest with
            | .ok (i, ts2) => pAttrSetMany fuel ts2 (items ++ [i]) (seps ++ [t])
            | .error _ => .ok ((items, seps), ts)
          else .ok ((items, seps), ts)
      | [] => .ok ((items, seps), ts)

  termination_by structural fuel
/-- Parse `eclAttribute`: optional reverse flag (an identifier or the
`reverseOf` keyword), attribute name, comparator, then the hash-numeric
path or an attribute value. -/
def pAttribute (fuel : Nat) (ts : List Tok) : Except String (CstAttribute × List Tok) :=
  match fuel with
  | 0 => .error "fuel exhausted"
  | fuel + 1 => do
      let (rev, ts) ←
        match ts with
        | t :: rest =>
            if t.kind = .identifier || t.kind = .reverseOf then pure (some t, rest)
            else pure (none, ts)
        | [] => pure (none, ts)
      let (name, ts) ← pAttrName fuel ts
      let (comp, ts) ←
        match ts with
        | t :: rest =>
            if isComparatorKind t.kind then pure (t, rest)
            else .error "NoViableAltException: comparator"
        | [] => .error "NoViableAltException: comparator"
      match peekKind ts with
      | some .hash => do
          let (_, ts) ← expectK .hash ts
          let (n, ts) ← pNumericValue ts
          .ok (.mk rev name comp (.hashNum n), ts)
      | some .stringLiteral => do
          let (t, ts) ← expectK .stringLiteral ts
          .ok (.mk rev name comp (.lit t), ts)
      | some .trueK => do
          let (t, ts) ← expectK .trueK ts
          .ok (.mk rev name comp (.lit t), ts)
      | some .falseK => do
          let (t, ts) ← expectK .falseK ts
          .ok (.mk rev name comp (.lit t), ts)
      | _ => do
          let (s, ts) ← pSub fuel ts
          .ok (.mk rev name comp (.subExpr s), ts)

  termination_by structural fuel
/-- Parse `eclAttributeName`: optional constraint operator, focus concept,
filter constraints (no dotted continuation). -/
def pAttrName (fuel : Nat) (ts : List Tok) : Except String (CstAttrName × List Tok) :=
  match fuel with
  | 0 => .error "fuel exhausted"
  | fuel + 1 => do
      let (op, ts) ←
        match ts with
        | t :: rest =>
            if isConstraintOpKind t.kind then pure (some t, rest) else pure (none, ts)
        | [] => pure (none, ts)
      let (focus, ts) ← pFocus fuel ts
      let (filters, ts) ← pFiltersLoop fuel ts []
      .ok (.mk op focus filters, ts)

  termination_by structural fuel
end

/-- Result of running the grammar on a token stream (`parse` in
`src/parser/parser.ts`): the CST when the start rule and the
all-input-consumed check succeed, otherwise the error. -/
def parseTokens (toks : List Tok) : Except String CstExpr :=
  match pExpr (20 * toks.length + 64) toks with
  | .ok (cst, []) => .ok cst
  | .ok (_, _ :: _) => .error "NotAllInputParsedException: Redundant input, expecting EOF"
  | .error e => .error e

end Ecl

namespace Ecl

/-- One cardinality bound: a parsed integer or the `*` marker. -/
inductive CardBound where
  | num (n : Nat)
  | star
deriving DecidableEq, Repr

/-- Cardinality value as built by the visitor (`min`, `max`). -/
structure CardVal where
  min : CardBound
  max : CardBound
deriving DecidableEq, Repr

/-- A concept-reference payload (`sctId` plus optional term), used where
filter nodes hold a `ConceptReference` value. -/
structure CRef where
  sctId : String
  term : Option String
deriving DecidableEq, Repr

/-- Runtime AST nodes, mirroring the JavaScript objects the AST builder in
`src/parser/visitor.ts` constructs (each constructor corresponds to a
`type` tag; fields that the builder may leave absent are `Option`s, with
`none` for an absent JS property).  `dottedPath` and `nestedAttrSet` exist
in `src/parser/ast.ts` and are consumed by the printer; the visitor
revision in the repository never constructs `dottedPath`. -/
inductive Ast where
  | compound (operator : String) (left right : Ast)
  | refined (expression : Ast) (refinement : Ast)
  | subExpr (constraintOperator : Option String) (focusConcept : Ast) (filters : List Ast)
  | conceptRef (sctId : String) (term : Option String)
  | wildcardC
  | altIdent (scheme code : String)
  | nestedExpr (expression : Ast)
  | dottedPath (base : Ast) (attributes : List Ast)
  | refinementN (items : List Ast) (conjunctions : List String)
  | attrGroup (cardinality : Option CardVal) (attributes : List Ast) (conjunctions : List String)
  | attrNode (cardinality : Option CardVal) (reverseFlag : Bool) (name : Ast)
      (comparator : String) (value : Ast)
  | nestedAttrSet (items : List Ast) (conjunctions : List String)
  | filterN (constraints : List Ast) (conjunctions : List String)
  | termFilterN (operator : Option String) (value : Option String)
      (values : Option (List String))
  | languageFilterN (value : String)
  | typeFilterN (valueKw : Option String) (valueRef : Option CRef)
  | dialectFilterN (valueStr : Option String) (valueRef : Option CRef)
      (acceptability : Option String)
  | moduleFilterN (value : CRef)
  | effectiveTimeFilterN (comparator value : String)
  | activeFilterN (value : Bool)
  | defStatusFilterN (valueKw : Option String) (valueRef : Option CRef)
  | stringValue (value : String)
  | numberValue (value : Nat)
  | booleanValue (value : Bool)
deriving Repr

/-- JS `String.prototype.slice(1, -1)`: drop the first and last character. -/
def sliceEnds (s : String) : String :=
  ⟨(s.toList.drop 1).dropLast⟩

/-- JS `String.prototype.trim`: strip leading and trailing whitespace. -/
def jsTrim (s : String) : String :=
  ⟨((s.toList.dropWhile isSpaceCh).reverse.dropWhile isSpaceCh).reverse⟩

/-- JS `parseInt` on a digit string (the only use sites pass images of
`Integer` tokens, hence all-digit strings). -/
def digitsToNat (s : String) : Nat :=
  s.toList.foldl (fun acc c => 10 * acc + (c.toNat - '0'.toNat)) 0

/-- The conjunction-folding loop shared by the visitor's `eclRefinement`,
`eclAttributeSet` and `filterExpressionConstraint` methods
(`src/parser/visitor.ts`): for each `i` from 1 to `n - 1` it pushes
`"AND"` when `ctx.And[i-1]` exists, else `"OR"` when `ctx.Or[i-1]` exists,
else `","` when `ctx.Comma[i-1]` exists, else nothing.  `ctx.And[i-1]`
exists exactly when `i - 1` is below the number of `AND` tokens consumed
in the rule, so the loop depends only on the three counts. -/
def visitorConjFold (n nAnd nOr nComma : Nat) : List String :=
  (List.range (n - 1)).filterMap fun idx =>
    if idx < nAnd then some "AND"
    else if idx < nOr then some "OR"
    else if idx < nComma then some ","
    else none

/-- Count of separator tokens of one kind. -/
def countSep (seps : List Tok) (k : TokKind) : Nat :=
  (seps.filter (fun t => t.kind = k)).length

/-- Visitor method `booleanOperator`: map the consumed token to the
canonical uppercase operator string. -/
def buildBooleanOperator (t : Tok) : Except String String :=
  match t.kind with
  | .andK => .ok "AND"
  | .orK => .ok "OR"
  | .minusK => .ok "MINUS"
  | _ => .error "Error: Unknown boolean operator"

/-- Visitor method `constraintOperator`: brief tokens map to brief tags,
long-form keyword tokens map to the distinct long-form tags. -/
def buildConstraintOperator (t : Tok) : Except String String :=
  match t.kind with
  | .childOrSelfOf => .ok "<<!"
  | .descendantOrSelfOf => .ok "<<"
  | .childOf => .ok "<!"
  | .descendantOf => .ok "<"
  | .parentOrSelfOf => .ok ">>!"
  | .ancestorOrSelfOf => .ok ">>"
  | .parentOf => .ok ">!"
  | .ancestorOf => .ok ">"
  | .memberOf => .ok "^"
  | .descendantOrSelfOfKeyword => .ok "descendantOrSelfOf"
  | .descendantOfKeyword => .ok "descendantOf"
  | .childOrSelfOfKeyword => .ok "childOrSelfOf"
  | .childOfKeyword => .ok "childOf"
  | .ancestorOrSelfOfKeyword => .ok "ancestorOrSelfOf"
  | .ancestorOfKeyword => .ok "ancestorOf"
  | .parentOrSelfOfKeyword => .ok "parentOrSelfOf"
  | .parentOfKeyword => .ok "parentOf"
  | .memberOfKeyword => .ok "memberOf"
  | _ => .error "Error: Unknown constraint operator"

/-- Visitor method `comparator`. -/
def buildComparator (t : Tok) : Except String String :=
  match t.kind with
  | .equals => .ok "="
  | .notEquals => .ok "!="
  | .lessThanOrEquals => .ok "<="
  | .greaterThanOrEquals => .ok ">="
  | .descendantOf => .ok "<"
  | .ancestorOf => .ok ">"
  | _ => .error "Error: Unknown comparator"

/-- Visitor method `eclConceptReference`: the identifier image plus the
pipe-stripped, trimmed term. -/
def buildConceptRef (r : CstConceptRef) : CRef :=
  ⟨r.sct.image, r.term.map (fun t => (sliceEnds t.image).trim)⟩

/-- Visitor method `alternateIdentifier`: handles the string-literal,
concept-ID and second-identifier alternatives; the `AlternateIdCode`
alternative of the grammar has no branch and falls through to the throw. -/
def buildAltId (scheme : Tok) (code : CstAltCode) : Except String Ast :=
  match code with
  | .strLit t => .ok (.altIdent scheme.image (sliceEnds t.image))
  | .sct t => .ok (.altIdent scheme.image t.image)
  | .ident t => .ok (.altIdent scheme.image t.image)
  | .altCode _ => .error "Error: Unknown alternate identifier code type"

/-- Visitor method `cardinality`: bounds in textual order (the source
reconstructs this order by sorting the integer and wildcard tokens by
start offset). -/
def buildCard (c : CstCard) : CardVal :=
  let bound := fun (t : Tok) =>
    if t.kind = .wildcard then CardBound.star
    else CardBound.num (digitsToNat t.image)
  ⟨bound c.lo, bound c.hi⟩

/-- Visitor method `termFilter`: a `TermFilter` node carrying the singular
`value` field (never the `values` array the printer reads). -/
def buildTermFilter (op : Option Tok) (strs : List Tok) : Ast :=
  let operator := op.bind fun t =>
    match t.kind with
    | .matchK => some "match"
    | .wildK => some "wild"
    | _ => none
  .termFilterN operator ((strs.head?).map (fun t => sliceEnds t.image)) none

/-- Visitor methods for the individual filters (`filter` dispatch). -/
def buildFilterOne (f : CstFilterOne) : Ast :=
  match f with
  | .termF op strs => buildTermFilter op strs
  | .langF a => .languageFilterN a.image
  | .typeF kw ref =>
      .typeFilterN (kw.map (fun t => if t.kind = .preferred then "PREFERRED" else "ACCEPTABLE"))
        (ref.map buildConceptRef)
  | .dialectF a ref accept =>
      .dialectFilterN (a.map (·.image)) (ref.map buildConceptRef)
        (accept.map (fun t => if t.kind = .preferred then "PREFERRED" else "ACCEPTABLE"))
  | .moduleF r => .moduleFilterN (buildConceptRef r)
  | .activeF b => .activeFilterN b
  | .defStatusF kw ref =>
      .defStatusFilterN
        (kw.map (fun t => if t.kind = .primitive then "PRIMITIVE" else "DEFINED"))
        (ref.map buildConceptRef)

/-- Visitor method `filterExpressionConstraint`: constraints plus the
conjunction fold, which checks only the `AND` and `OR` token lists (a
comma separator contributes no conjunction entry). -/
def buildFilterConstraint (fc : CstFilterConstraint) : Ast :=
  .filterN (fc.filters.map buildFilterOne)
    (visitorConjFold fc.filters.length (countSep fc.seps .andK) (countSep fc.seps .orK) 0)

end Ecl

namespace Ecl

mutual

/-- Visitor method `expressionConstraint`: left-fold the boolean-operator
continuations into a left-nested `CompoundExpression` chain. -/
def buildExpr (fuel : Nat) (e : CstExpr) : Except String Ast :=
  match fuel with
  | 0 => .error "fuel exhausted"
  | fuel + 1 =>
      match e with
      | .mk first rest => do
          let f ← buildSimple fuel first
          buildExprFold fuel f rest

  termination_by structural fuel
/-- Fold loop of `expressionConstraint`. -/
def buildExprFold (fuel : Nat) (acc : Ast) (rest : List (Tok × CstSimple)) :
    Except String Ast :=
  match fuel with
  | 0 => .error "fuel exhausted"
  | fuel + 1 =>
      match rest with
      | [] => .ok acc
      | (opTok, s) :: more => do
          let op ← buildBooleanOperator opTok
          let right ← buildSimple fuel s
          buildExprFold fuel (.compound op acc right) more

  termination_by structural fuel
/-- Visitor method `simpleOrRefinedExpression`. -/
def buildSimple (fuel : Nat) (s : CstSimple) : Except String Ast :=
  match fuel with
  | 0 => .error "fuel exhausted"
  | fuel + 1 =>
      match s with
      | .mk sub none => buildSub fuel sub
      | .mk sub (some r) => do
          let e ← buildSub fuel sub
          let refi ← buildRefinement fuel r
          .ok (.refined e refi)

  termination_by structural fuel
/-- Visitor method `subExpressionConstraint`: constraint operator, focus
concept and filters; the dotted continuations present in the CST have no
corresponding visitor code and are dropped. -/
def buildSub (fuel : Nat) (s : CstSub) : Except String Ast :=
  match fuel with
  | 0 => .error "fuel exhausted"
  | fuel + 1 =>
      match s with
      | .mk op focus filters _dotted => do
          let opStr ← match op with
            | some t => do
                let o ← buildConstraintOperator t
                pure (some o)
            | none => pure none
          let f ← buildFocus fuel focus
          .ok (.subExpr opStr f (filters.map buildFilterConstraint))

  termination_by structural fuel
/-- Visitor method `eclFocusConcept`. -/
def buildFocus (fuel : Nat) (f : CstFocus) : Except String Ast :=
  match fuel with
  | 0 => .error "fuel exhausted"
  | fuel + 1 =>
      match f with
      | .conceptRef r =>
          let c := buildConceptRef r
          .ok (.conceptRef c.sctId c.term)
      | .wildcard => .ok .wildcardC
      | .nested inner => do
          let e ← buildExpr fuel inner
          .ok (.nestedExpr e)
      | .altId scheme code => buildAltId scheme code

  termination_by structural fuel
/-- Visitor method `eclRefinement`: build the items and fold the
conjunction tokens with the shared index-based loop. -/
def buildRefinement (fuel : Nat) (r : CstRefinement) : Except String Ast :=
  match fuel with
  | 0 => .error "fuel exhausted"
  | fuel + 1 =>
      match r with
      | .mk items seps => do
          let built ← buildRefItems fuel items
          .ok (.refinementN built
            (visitorConjFold items.length (countSep seps .andK)
              (countSep seps .orK) (countSep seps .comma)))

  termination_by structural fuel
/-- Build each refinement item in order. -/
def buildRefItems (fuel : Nat) (items : List CstRefItem) : Except String (List Ast) :=
  match fuel with
  | 0 => .error "fuel exhausted"
  | fuel + 1 =>
      match items with
      | [] => .ok []
      | i :: rest => do
          let a ← buildRefItem fuel i
          let more ← buildRefItems fuel rest
          .ok (a :: more)

  termination_by structural fuel
/-- Visitor method `eclRefinementItem`: attach the optional cardinality to
the attribute group or attribute it prefixes.  Modelled from the spec for
the sub-attribute-set dispatch: the visitor revision in the repository
dispatches on an attribute child directly, predating the grammar's
`subAttributeSet` indirection; the spec (section 4.3(d)) requires the
cardinality to be attached to the group or attribute either way. -/
def buildRefItem (fuel : Nat) (i : CstRefItem) : Except String Ast :=
  match fuel with
  | 0 => .error "fuel exhausted"
  | fuel + 1 =>
      match i with
      | .mk card body => do
          let node ← match body with
            | .group s => do
                let (attrs, conjs) ← buildAttrSet fuel s
                pure (Ast.attrGroup none attrs conjs)
            | .sub s => buildSubAttrSet fuel s
          match card, node with
          | some c, .attrGroup _ attrs conjs => .ok (.attrGroup (some (buildCard c)) attrs conjs)
          | some c, .attrNode _ rev name comp value =>
              .ok (.attrNode (some (buildCard c)) rev name comp value)
          | _, n => .ok n

  termination_by structural fuel
/-- Sub-attribute set: a single attribute or a parenthesized attribute
set.  Modelled from the spec: this grammar rule postdates the visitor
revision in the repository; the spec (section 3) gives the parenthesized
alternative the `NestedAttributeSet` shape of `src/parser/ast.ts`
(items plus conjunctions). -/
def buildSubAttrSet (fuel : Nat) (s : CstSubAttrSet) : Except String Ast :=
  match fuel with
  | 0 => .error "fuel exhausted"
  | fuel + 1 =>
      match s with
      | .attr a => buildAttribute fuel a
      | .parenSet set => do
          let (items, conjs) ← buildAttrSet fuel set
          .ok (.nestedAttrSet items conjs)

  termination_by structural fuel
/-- Visitor method `eclAttributeSet`: the item list together with the
index-based conjunction fold (returned as a pair, exactly the
`{ attributes, conjunctions }` record the source returns). -/
def buildAttrSet (fuel : Nat) (s : CstAttrSet) : Except String (List Ast × List String) :=
  match fuel with
  | 0 => .error "fuel exhausted"
  | fuel + 1 =>
      match s with
      | .mk items seps => do
          let built ← buildAttrSetItems fuel items
          .ok (built,
            visitorConjFold items.length (countSep seps .andK)
              (countSep seps .orK) (countSep seps .comma))

  termination_by structural fuel
/-- Build each attribute-set item in order. -/
def buildAttrSetItems (fuel : Nat) (items : List CstSubAttrSet) : Except String (List Ast) :=
  match fuel with
  | 0 => .error "fuel exhausted"
  | fuel + 1 =>
      match items with
      | [] => .ok []
      | i :: rest => do
          let a ← buildSubAttrSet fuel i
          let more ← buildAttrSetItems fuel rest
          .ok (a :: more)

  termination_by structural fuel
/-- Visitor method `eclAttribute`: name, comparator and value; the
consumed reverse-flag token has no visitor code (no `reverseFlag` is set),
and the hash-numeric value path reads the absent `eclAttributeValue`
child, raising a `TypeError`. -/
def buildAttribute (fuel : Nat) (a : CstAttribute) : Except String Ast :=
  match fuel with
  | 0 => .error "fuel exhausted"
  | fuel + 1 =>
      match a with
      | .mk _rev name comp value => do
          let n ← buildAttrName fuel name
          let c ← buildComparator comp
          let v ← buildAttrValue fuel value
          .ok (.attrNode none false n c v)

  termination_by structural fuel
/-- Attribute name as a sub-expression.  Modelled from the spec: the
visitor revision in the repository reads a `subExpressionConstraint` child
that this grammar's `eclAttributeName` rule no longer produces; the spec
(section 3) makes an attribute name a full sub-expression (optional
constraint operator, focus concept, filters). -/
def buildAttrName (fuel : Nat) (n : CstAttrName) : Except String Ast :=
  match fuel with
  | 0 => .error "fuel exhausted"
  | fuel + 1 =>
      match n with
      | .mk op focus filters => do
          let opStr ← match op with
            | some t => do
                let o ← buildConstraintOperator t
                pure (some o)
            | none => pure none
          let f ← buildFocus fuel focus
          .ok (.subExpr opStr f (filters.map buildFilterConstraint))

  termination_by structural fuel
/-- Visitor method `eclAttributeValue`: string, boolean or sub-expression
alternatives; the hash-numeric path leaves the `eclAttributeValue` child
absent, so the visitor's indexing of it throws. -/
def buildAttrValue (fuel : Nat) (v : CstAttrValue) : Except String Ast :=
  match fuel with
  | 0 => .error "fuel exhausted"
  | fuel + 1 =>
      match v with
      | .lit t =>
          match t.kind with
          | .stringLiteral => .ok (.stringValue (sliceEnds t.image))
          | .trueK => .ok (.booleanValue true)
          | .falseK => .ok (.booleanValue false)
          | _ => .error "Error: Unknown attribute value type"
      | .subExpr s => buildSub fuel s
      | .hashNum _ => .error "TypeError: Cannot read properties of undefined (reading '0')"

  termination_by structural fuel
end

/-- Entry point of the AST builder (`buildAst` in `src/parser/visitor.ts`).
The fuel bounds the recursion depth; the caller passes a bound derived
from the token count, which dominates the depth of any CST the grammar
produces from those tokens. -/
def buildAst (fuel : Nat) (cst : CstExpr) : Except String Ast :=
  buildExpr fuel cst

/-- Result shape of `parseEcl` (`src/parser/index.ts`): the AST, or `none`
with the error messages. -/
structure ParseResult where
  ast : Option Ast
  errors : List String
deriving Repr

/-- Parse ECL text (`parseEcl` in `src/parser/index.ts`): tokenize, stop
on lexing errors, parse, stop on parse errors, then build the AST,
catching any builder exception. -/
def parseEcl (input : String) : ParseResult :=
  let lexResult := tokenize input
  if lexResult.errors.length > 0 then
    ⟨none, lexResult.errors.map (·.message)⟩
  else
    match parseTokens lexResult.tokens with
    | .error e => ⟨none, [e]⟩
    | .ok cst =>
        match buildAst (20 * lexResult.tokens.length + 64) cst with
        | .ok ast => ⟨some ast, []⟩
        | .error e => ⟨none, [e]⟩

end Ecl

namespace Ecl

/-- Number of operands of a flattened compound chain
(`countCompoundChainLength` in `src/formatter/rules.ts`): one for the
right operand, one per compound node found walking the left spine, one
for the leftmost operand. -/
def countCompoundChainLength : Ast → Nat
  | .compound _ l _ => 2 + leftSpine l
  | _ => 2
where
  /-- Compound nodes along the left spine. -/
  leftSpine : Ast → Nat
    | .compound _ l _ => 1 + leftSpine l
    | _ => 0

/-- Type-tag test for attribute-group nodes. -/
def isGroupNode : Ast → Bool
  | .attrGroup _ _ _ => true
  | _ => false

/-- Complexity classifier (`isComplex` in `src/formatter/rules.ts`).
The `AttributeGroup` case reads `group.items.length`; attribute-group
nodes built by the visitor carry an `attributes` property but no `items`,
so reaching that case raises a `TypeError` (it is unreachable from the
printer, which only applies `isComplex` to expression nodes). -/
def isComplex : Ast → Except String Bool
  | .compound op l r =>
      if countCompoundChainLength (.compound op l r) > 2 then .ok true
      else do
        let cl ← isComplex l
        if cl then .ok true else isComplex r
  | .refined _ _ => .ok true
  | .subExpr _ focus filters =>
      if filters.length > 0 then .ok true
      else
        match focus with
        | .nestedExpr _ => .ok true
        | _ => .ok false
  | .nestedExpr e => isComplex e
  | .attrGroup _ _ _ =>
      .error "TypeError: Cannot read properties of undefined (reading 'length')"
  | .nestedAttrSet items _ => .ok (items.length > 1)
  | .refinementN items _ =>
      if items.length > 1 then .ok true
      else if items.any isGroupNode then .ok true
      else .ok false
  | _ => .ok false

/-- Refinement line-break rule (`shouldBreakRefinement` in
`src/formatter/rules.ts`): multiple items, any attribute-group item, or
any attribute group with multiple items (the last check dereferences
`item.items`, absent on visitor-built groups, but only runs when the
previous check found no group). -/
def shouldBreakRefinement (items : List Ast) : Except String Bool :=
  if items.length > 1 then .ok true
  else if items.any isGroupNode then .ok true
  else groupLoop items
where
  /-- The final `for` loop of the source. -/
  groupLoop : List Ast → Except String Bool
    | [] => .ok false
    | item :: rest =>
        if isGroupNode item then
          .error "TypeError: Cannot read properties of undefined (reading 'length')"
        else groupLoop rest

/-- Attribute-group line-break rule (`shouldBreakAttributeGroup`): reads
`group.items.length`, absent on visitor-built attribute groups, so every
group reaching the printer raises a `TypeError`. -/
def shouldBreakAttributeGroup : Ast → Except String Bool
  | .attrGroup _ _ _ =>
      .error "TypeError: Cannot read properties of undefined (reading 'length')"
  | .nestedAttrSet items _ => .ok (items.length > 1)
  | _ => .error "TypeError: Cannot read properties of undefined (reading 'length')"

/-- Compound line-break rule (`shouldBreakCompound`): break when either
operand is complex. -/
def shouldBreakCompound (l r : Ast) : Except String Bool := do
  let cl ← isComplex l
  if cl then .ok true else isComplex r

/-- Spaces for one column position (`" ".repeat(n)`). -/
def spacesN (n : Nat) : String :=
  ⟨List.replicate n ' '⟩

/-- Render a concept reference (`printConceptReference`). -/
def printCRefStr (sctId : String) (term : Option String) : String :=
  match term with
  | some t => sctId ++ " |" ++ t ++ "|"
  | none => sctId

/-- Render an alternate identifier (`printAlternateIdentifier`): quote the
code when it contains a character outside `[a-zA-Z0-9_-]`. -/
def printAlternateIdentifier (scheme code : String) : String :=
  if code.toList.any (fun c => !(isAlnumCh c || c = '_' || c = '-')) then
    scheme ++ "#\"" ++ code ++ "\""
  else scheme ++ "#" ++ code

/-- Render a constraint operator (`printConstraintOperator`): long-form
tags are rewritten to the brief syntax, every other tag is returned
unchanged. -/
def printConstraintOperator (op : String) : String :=
  match op with
  | "descendantOf" => "<"
  | "descendantOrSelfOf" => "<<"
  | "childOf" => "<!"
  | "childOrSelfOf" => "<<!"
  | "ancestorOf" => ">"
  | "ancestorOrSelfOf" => ">>"
  | "parentOf" => ">!"
  | "parentOrSelfOf" => ">>!"
  | "memberOf" => "^"
  | _ => op

/-- Render a cardinality (`printCardinality`). -/
def printCardinalityStr (c : CardVal) : String :=
  let part := fun b => match b with
    | CardBound.star => "*"
    | CardBound.num n => toString n
  "[" ++ part c.min ++ ".." ++ part c.max ++ "]"

/-- Render one filter constraint (`printFilterConstraint`).  The term
filter branch maps over `termFilter.values`; visitor-built term filters
carry only the singular `value`, so the dereference raises a
`TypeError`. -/
def printFilterConstraint : Ast → Except String String
  | .termFilterN op _value values =>
      match values with
      | none => .error "TypeError: Cannot read properties of undefined (reading 'map')"
      | some vs =>
          let quoted := vs.map (fun v => "\"" ++ v ++ "\"")
          let valueStr :=
            if vs.length > 1 then "(" ++ String.intercalate " " quoted ++ ")"
            else quoted.headD "undefined"
          match op with
          | some o => .ok ("term = " ++ o ++ ":" ++ valueStr)
          | none => .ok ("term = " ++ valueStr)
  | .languageFilterN v => .ok ("language = " ++ v)
  | .typeFilterN kw ref =>
      match kw, ref with
      | some s, _ => .ok ("type = " ++ s)
      | none, some r => .ok ("type = " ++ printCRefStr r.sctId r.term)
      | none, none => .error "TypeError: Cannot read properties of undefined (reading 'term')"
  | .dialectFilterN vs ref accept =>
      let base :=
        match vs, ref with
        | some s, _ => some ("dialect = " ++ s)
        | none, some r => some ("dialect = " ++ printCRefStr r.sctId r.term)
        | none, none => none
      match base with
      | none => .error "TypeError: Cannot read properties of undefined (reading 'term')"
      | some b =>
          match accept with
          | some a => .ok (b ++ " (" ++ a ++ ")")
          | none => .ok b
  | .moduleFilterN r => .ok ("moduleId = " ++ printCRefStr r.sctId r.term)
  | .effectiveTimeFilterN c v => .ok ("effectiveTime " ++ c ++ " \"" ++ v ++ "\"")
  | .activeFilterN b => .ok ("active = " ++ (if b then "true" else "false"))
  | .defStatusFilterN kw ref =>
      match kw, ref with
      | some s, _ => .ok ("definitionStatusId = " ++ s)
      | none, some r => .ok ("definitionStatusId = " ++ printCRefStr r.sctId r.term)
      | none, none => .error "TypeError: Cannot read properties of undefined (reading 'term')"
  | _ => .error "Error: Unknown filter type"

end Ecl

namespace Ecl

/-- Formatting options (`FormattingOptions` in `src/formatter/rules.ts`):
the single `indentSize` option. -/
structure FormattingOptions where
  indentSize : Nat
deriving DecidableEq, Repr

/-- Default options (`defaultOptions`). -/
def defaultOptions : FormattingOptions := ⟨2⟩

/-- Break-mode join of `printRefinement`/`printAttributeGroup`: the
conjunction (defaulting to a comma) closes the preceding line. -/
def joinBroken (parts : List String) (conjs : List String) : String :=
  match parts with
  | [] => "undefined"
  | p :: rest => go p rest 1
where
  /-- Accumulating loop, `i` indexing parts from 1. -/
  go (acc : String) : List String → Nat → String
    | [], _ => acc
    | q :: more, i =>
        let conj := conjs.getD (i - 1) ","
        go (acc ++ (if conj = "," then "," else " " ++ conj) ++ "\n" ++ q) more (i + 1)

/-- Inline join of `printRefinement`/`printAttributeGroup`. -/
def joinInline (parts : List String) (conjs : List String) : String :=
  match parts with
  | [] => "undefined"
  | p :: rest => go p rest 1
where
  /-- Accumulating loop, `i` indexing parts from 1. -/
  go (acc : String) : List String → Nat → String
    | [], _ => acc
    | q :: more, i =>
        let conj := conjs.getD (i - 1) ","
        go (acc ++ (if conj = "," then ", " else " " ++ conj ++ " ") ++ q) more (i + 1)

/-- Sequential rendering of the filter constraints (the `.map` call of
`printFilter`, which propagates the first thrown exception). -/
def mapPFC : List Ast → Except String (List String)
  | [] => .ok []
  | c :: rest => do
      let s ← printFilterConstraint c
      let more ← mapPFC rest
      .ok (s :: more)

/-- Join loop of `printFilter` with the `AND` default. -/
def joinFilters (acc : String) : List String → List String → Nat → String
  | [], _, _ => acc
  | c :: more, conjs, i =>
      joinFilters (acc ++ " " ++ conjs.getD (i - 1) "AND" ++ " " ++ c) more conjs (i + 1)

/-- Filter rendering (`printFilter`): render every constraint of the
filter node at the same column, join with conjunctions defaulting to
`AND`, wrap in double braces.  On a node that is not a `Filter`, reading
its absent `constraints` and mapping over it raises a `TypeError`
(unreachable from the printer, which only passes filter nodes). -/
def printFilter (f : Ast) : Except String String :=
  match f with
  | .filterN constraints conjs => do
      let strs ← mapPFC constraints
      match strs with
      | [] => .ok ("\x7b\x7b " ++ "undefined" ++ " \x7d\x7d")
      | c :: rest =>
          .ok ("\x7b\x7b " ++ joinFilters c rest conjs 1 ++ " \x7d\x7d")
  | _ => .error "TypeError: Cannot read properties of undefined (reading 'map')"

mutual

/-- The printer dispatch (`print` in `src/formatter/printer.ts`): renders
one AST node given the indent level and current column; node types without
a `case` (including `NestedAttributeSet` and the filter-constraint node
types) fall to the default branch, which throws. -/
def print (fuel : Nat) (node : Ast) (options : FormattingOptions)
    (indent column : Nat) : Except String String :=
  match fuel with
  | 0 => .error "fuel exhausted"
  | fuel + 1 =>
      match node with
      | .compound op l r => printCompound fuel op l r options indent column
      | .refined e refi => printRefined fuel e refi options indent column
      | .subExpr op focus filters =>
          printSubExpression fuel op focus filters options indent column
      | .conceptRef sct term => .ok (printCRefStr sct term)
      | .wildcardC => .ok "*"
      | .altIdent scheme code => .ok (printAlternateIdentifier scheme code)
      | .nestedExpr e => printNestedExpression fuel e options indent column
      | .refinementN items conjs =>
          printRefinement fuel items conjs options indent column
      | .attrGroup card attrs conjs =>
          printAttributeGroup fuel (.attrGroup card attrs conjs) card attrs conjs
            options indent column
      | .attrNode card rev name comp value =>
          printAttribute fuel card rev name comp value options indent column
      | .dottedPath base attrs =>
          printDottedAttributePath fuel base attrs options indent column
      | .filterN constraints conjs => printFilter (.filterN constraints conjs)
      | .stringValue v => .ok ("\"" ++ v ++ "\"")
      | .numberValue v => .ok (toString v)
      | .booleanValue v => .ok (if v then "true" else "false")
      | _ => .error "Error: Unknown node type"

  termination_by structural fuel
/-- Compound rendering (`printCompound`): inline when no break is needed,
otherwise left operand, newline, operator; a right operand that is a bare
parenthesized sub-expression glues the operator to the opening
parenthesis and aligns the closing parenthesis under it. -/
def printCompound (fuel : Nat) (op : String) (l r : Ast)
    (options : FormattingOptions) (indent column : Nat) : Except String String :=
  match fuel with
  | 0 => .error "fuel exhausted"
  | fuel + 1 => do
      let shouldBreak ← shouldBreakCompound l r
      let leftStr ← print fuel l options indent column
      if shouldBreak then
        let spaces := spacesN indent
        match r with
        | .subExpr none (.nestedExpr inner) [] =>
            let parenColumn := indent + op.length
            let contentIndent := parenColumn + options.indentSize
            let innerStr ← print fuel inner options contentIndent contentIndent
            let closingSpaces := spacesN parenColumn
            .ok (leftStr ++ "\n" ++ spaces ++ op ++ "(" ++ "\n" ++
              spacesN contentIndent ++ innerStr ++ "\n" ++ closingSpaces ++ ")")
        | _ =>
            let operatorColumn := indent + op.length + 1
            let rightStr ← print fuel r options indent operatorColumn
            .ok (leftStr ++ "\n" ++ spaces ++ op ++ " " ++ rightStr)
      else
        let rightColumn := column + leftStr.length + 1 + op.length + 1
        let rightStr ← print fuel r options indent rightColumn
        .ok (leftStr ++ " " ++ op ++ " " ++ rightStr)

  termination_by structural fuel
/-- Refined-expression rendering (`printRefined`). -/
def printRefined (fuel : Nat) (e refi : Ast) (options : FormattingOptions)
    (indent column : Nat) : Except String String :=
  match fuel with
  | 0 => .error "fuel exhausted"
  | fuel + 1 => do
      let exprStr ← print fuel e options indent column
      let items := match refi with
        | .refinementN items _ => items
        | _ => []
      let conjs := match refi with
        | .refinementN _ conjs => conjs
        | _ => []
      let shouldBreak ← shouldBreakRefinement items
      if shouldBreak then
        let nextIndent := indent + options.indentSize
        let refinementStr ← printRefinement fuel items conjs options nextIndent nextIndent
        .ok (exprStr ++ ":\n" ++ refinementStr)
      else
        let refinementColumn := column + exprStr.length + 2
        let refinementStr ← printRefinement fuel items conjs options indent refinementColumn
        .ok (exprStr ++ ": " ++ refinementStr)

  termination_by structural fuel
/-- Sub-expression rendering (`printSubExpression`): optional operator in
brief form, focus concept, then each filter one space further, threading
the running column. -/
def printSubExpression (fuel : Nat) (op : Option String) (focus : Ast)
    (filters : List Ast) (options : FormattingOptions) (indent column : Nat) :
    Except String String :=
  match fuel with
  | 0 => .error "fuel exhausted"
  | fuel + 1 => do
      let (prefixStr, col1) :=
        match op with
        | some o =>
            let os := printConstraintOperator o
            (os ++ " ", column + os.length + 1)
        | none => ("", column)
      let focusStr ← print fuel focus options indent col1
      let col2 := col1 + focusStr.length
      let filtersStr ← printSubFilters fuel filters options indent col2
      .ok (prefixStr ++ focusStr ++ filtersStr)

  termination_by structural fuel
/-- Filter loop of `printSubExpression`, threading the column. -/
def printSubFilters (fuel : Nat) (filters : List Ast)
    (options : FormattingOptions) (indent column : Nat) : Except String String :=
  match fuel with
  | 0 => .error "fuel exhausted"
  | fuel + 1 =>
      match filters with
      | [] => .ok ""
      | f :: rest => do
          let filterStr ← printFilter f
          let more ← printSubFilters fuel rest options indent (column + 1 + filterStr.length)
          .ok (" " ++ filterStr ++ more)

  termination_by structural fuel
/-- Nested-expression rendering (`printNestedExpression`): simple inner
content stays inline in parentheses; complex content breaks, the body
indented relative to the opening parenthesis, whose threaded column the
closing parenthesis is aligned to. -/
def printNestedExpression (fuel : Nat) (inner : Ast)
    (options : FormattingOptions) (indent column : Nat) : Except String String :=
  match fuel with
  | 0 => .error "fuel exhausted"
  | fuel + 1 => do
      let innerIsComplex ← isComplex inner
      if !innerIsComplex then
        let innerColumn := column + 1
        let innerStr ← print fuel inner options indent innerColumn
        .ok ("(" ++ innerStr ++ ")")
      else
        let innerStartsWithParen :=
          match inner with
          | .subExpr none (.nestedExpr _) [] => true
          | _ => false
        let contentIndent := if innerStartsWithParen then column + 1
          else column + options.indentSize
        let contentColumn := contentIndent
        let innerStr ← print fuel inner options contentIndent contentColumn
        let closingSpaces := spacesN column
        .ok ("(" ++ "\n" ++ spacesN contentColumn ++ innerStr ++ "\n" ++
          closingSpaces ++ ")")

  termination_by structural fuel
/-- Refinement rendering (`printRefinement`): multi-line mode puts each
item at the shared indent, joining with the conjunction at the end of the
preceding line; inline mode threads the running column through the items
and joins with `", "` or spaced keywords.  A missing conjunction entry
defaults to the comma. -/
def printRefinement (fuel : Nat) (items : List Ast) (conjs : List String)
    (options : FormattingOptions) (indent column : Nat) : Except String String :=
  match fuel with
  | 0 => .error "fuel exhausted"
  | fuel + 1 => do
      let spaces := spacesN indent
      let shouldBreak ← shouldBreakRefinement items
      if shouldBreak then
        let parts ← printedAtFixed fuel items options indent
        let parts := parts.map (fun s => spaces ++ s)
        .ok (joinBroken parts conjs)
      else
        let parts ← printedInline fuel items conjs options indent column
        .ok (joinInline parts conjs)

  termination_by structural fuel
/-- Break-mode item rendering: every item at the fixed indent column. -/
def printedAtFixed (fuel : Nat) (items : List Ast)
    (options : FormattingOptions) (indent : Nat) : Except String (List String) :=
  match fuel with
  | 0 => .error "fuel exhausted"
  | fuel + 1 =>
      match items with
      | [] => .ok []
      | it :: rest => do
          let s ← print fuel it options indent indent
          let more ← printedAtFixed fuel rest options indent
          .ok (s :: more)

  termination_by structural fuel
/-- Width of the separator following a non-final inline item (`", "` for
a comma, else the keyword with surrounding spaces). -/
def inlineSepLen (rest : List Ast) (conjs : List String) : Nat :=
  match rest with
  | [] => 0
  | _ =>
      let conj := conjs.headD ","
      if conj = "," then 2 else conj.length + 2

/-- Inline item rendering, threading the running column past each item
and the following separator. -/
def printedInline (fuel : Nat) (items : List Ast) (conjs : List String)
    (options : FormattingOptions) (indent column : Nat) : Except String (List String) :=
  match fuel with
  | 0 => .error "fuel exhausted"
  | fuel + 1 =>
      match items with
      | [] => .ok []
      | it :: rest => do
          let s ← print fuel it options indent column
          let more ← printedInline fuel rest conjs.tail options indent
            (column + s.length + inlineSepLen rest conjs)
          .ok (s :: more)

  termination_by structural fuel
/-- Attribute-group rendering (`printAttributeGroup`): the break decision
dereferences the absent `items` property first, so visitor-built groups
never reach the brace-rendering code below it. -/
def printAttributeGroup (fuel : Nat) (node : Ast) (card : Option CardVal)
    (attrs : List Ast) (conjs : List String) (options : FormattingOptions)
    (indent column : Nat) : Except String String :=
  match fuel with
  | 0 => .error "fuel exhausted"
  | fuel + 1 => do
      let shouldBreak ← shouldBreakAttributeGroup node
      let cardinalityStr :=
        match card with
        | some c => printCardinalityStr c ++ " "
        | none => ""
      if shouldBreak then
        let innerIndent := indent + options.indentSize
        let innerSpaces := spacesN innerIndent
        let parts ← printedAtFixed fuel attrs options innerIndent
        let parts := parts.map (fun s => innerSpaces ++ s)
        let spaces := spacesN indent
        .ok (cardinalityStr ++ "\x7b" ++ "\n" ++ joinBroken parts conjs ++ "\n" ++
          spaces ++ "\x7d")
      else
        let parts ← printedInline fuel attrs conjs options indent
          (column + cardinalityStr.length + 2)
        .ok (cardinalityStr ++ "\x7b " ++ joinInline parts conjs ++ " \x7d")

  termination_by structural fuel
/-- Attribute rendering (`printAttribute`): optional cardinality, optional
reverse flag, name, comparator, value, threading the running column. -/
def printAttribute (fuel : Nat) (card : Option CardVal) (rev : Bool)
    (name : Ast) (comp : String) (value : Ast) (options : FormattingOptions)
    (indent column : Nat) : Except String String :=
  match fuel with
  | 0 => .error "fuel exhausted"
  | fuel + 1 => do
      let (s1, col1) :=
        match card with
        | some c =>
            let cs := printCardinalityStr c
            (cs ++ " ", column + cs.length + 1)
        | none => ("", column)
      let (s2, col2) := if rev then (s1 ++ "R ", col1 + 2) else (s1, col1)
      let nameStr ← print fuel name options indent col2
      let col3 := col2 + nameStr.length
      let col4 := col3 + 1 + comp.length + 1
      let valueStr ← print fuel value options indent col4
      .ok (s2 ++ nameStr ++ " " ++ comp ++ " " ++ valueStr)

  termination_by structural fuel
/-- Dotted-attribute-path rendering (`printDottedAttributePath`). -/
def printDottedAttributePath (fuel : Nat) (base : Ast) (attrs : List Ast)
    (options : FormattingOptions) (indent column : Nat) : Except String String :=
  match fuel with
  | 0 => .error "fuel exhausted"
  | fuel + 1 => do
      let baseStr ← print fuel base options indent column
      dottedLoop fuel attrs options indent (column + baseStr.length) baseStr

  termination_by structural fuel
/-- Chained-attribute loop of `printDottedAttributePath`. -/
def dottedLoop (fuel : Nat) (attrs : List Ast) (options : FormattingOptions)
    (indent column : Nat) (acc : String) : Except String String :=
  match fuel with
  | 0 => .error "fuel exhausted"
  | fuel + 1 =>
      match attrs with
      | [] => .ok acc
      | a :: rest => do
          let attrStr ← print fuel a options indent (column + 3)
          dottedLoop fuel rest options indent (column + 3 + attrStr.length)
            (acc ++ " . " ++ attrStr)

  termination_by structural fuel
end

end Ecl

namespace Ecl

/-- Result shape of the format facade (`formatEcl`): formatted text or an
error, exactly one of them present in every outcome the facade
produces. -/
structure FormatResult where
  formatted : Option String
  error : Option String
deriving DecidableEq, Repr

/-- Printer fuel: the recursion of `print` descends into strict subterms
of the AST, whose node count the input length dominates (every node stems
from at least one input character), so this bound is never reached. -/
def printFuel (trimmed : String) : Nat :=
  16 * trimmed.length + 64

/-- The format facade (`formatEcl` in `src/formatter/format.ts`): trim,
reject empty input, parse, surface the first parse error, print, catch
and stringify any printer exception. -/
def formatEcl (text : String) (options : FormattingOptions := defaultOptions) :
    FormatResult :=
  let trimmed := jsTrim text
  if trimmed = "" then ⟨none, some "Empty input"⟩
  else
    let result := parseEcl trimmed
    match result.ast with
    | none => ⟨none, some (result.errors.headD "Parse error")⟩
    | some ast =>
        if result.errors.length > 0 then
          ⟨none, some (result.errors.headD "Parse error")⟩
        else
          match print (printFuel trimmed) ast options 0 0 with
          | .ok formatted => ⟨some formatted, none⟩
          | .error e => ⟨none, some e⟩

end Ecl

namespace Ecl

/-- Canonical string of a separator token (the conjunction that appeared
between two adjacent list items in the input). -/
def sepString (t : Tok) : String :=
  match t.kind with
  | .andK => "AND"
  | .orK => "OR"
  | _ => ","

/-- Column of index `i` in `s`: distance from the last newline before it. -/
def colAt (s : String) (i : Nat) : Nat :=
  ((s.toList.take i).reverse.takeWhile (fun c => !(c = '\n'))).length

/-- Scan for the parenthesis closing an already-open group: `d` is the
number of additionally opened groups, `i` the index of the next
character. -/
def findCloseGo : List Char → Nat → Nat → Option Nat
  | [], _, _ => none
  | '(' :: rest, d, i => findCloseGo rest (d + 1) (i + 1)
  | ')' :: rest, d, i => if d = 0 then some i else findCloseGo rest (d - 1) (i + 1)
  | _ :: rest, d, i => findCloseGo rest d (i + 1)

/-- Index of the closing parenthesis matching an opening parenthesis at
index `i` of `s`. -/
def matchingClose (s : String) (i : Nat) : Option Nat :=
  findCloseGo (s.toList.drop (i + 1)) 0 (i + 1)

/-- The final line of a rendered string (everything after the last
newline). -/
def lastLine (s : String) : String :=
  ⟨(s.toList.reverse.takeWhile (fun c => !(c = '\n'))).reverse⟩

/-- Containment of a visitor-built term filter (a `TermFilter` node
carrying no `values` array) at a position the printer renders: each
constructor follows one recursion step of `print`. -/
inductive HasTF : Ast → Prop where
  | self (op : Option String) (v : Option String) : HasTF (.termFilterN op v none)
  | filterC (cs : List Ast) (conjs : List String) (x : Ast) (hx : x ∈ cs)
      (h : HasTF x) : HasTF (.filterN cs conjs)
  | subFilter (op : Option String) (focus : Ast) (filters : List Ast)
      (cs : List Ast) (conjs : List String)
      (hm : (Ast.filterN cs conjs) ∈ filters) (h : HasTF (.filterN cs conjs)) :
      HasTF (.subExpr op focus filters)
  | subFocus (op : Option String) (focus : Ast) (filters : List Ast)
      (h : HasTF focus) : HasTF (.subExpr op focus filters)
  | compoundL (op : String) (l r : Ast) (h : HasTF l) : HasTF (.compound op l r)
  | compoundR (op : String) (l r : Ast) (h : HasTF r) : HasTF (.compound op l r)
  | refinedE (e r : Ast) (h : HasTF e) : HasTF (.refined e r)
  | refinedR (e : Ast) (items : List Ast) (conjs : List String)
      (h : HasTF (.refinementN items conjs)) :
      HasTF (.refined e (.refinementN items conjs))
  | nestedE (e : Ast) (h : HasTF e) : HasTF (.nestedExpr e)
  | refItem (items : List Ast) (conjs : List String) (x : Ast) (hx : x ∈ items)
      (h : HasTF x) : HasTF (.refinementN items conjs)
  | attrName (card : Option CardVal) (rev : Bool) (name : Ast) (comp : String)
      (value : Ast) (h : HasTF name) : HasTF (.attrNode card rev name comp value)
  | attrValue (card : Option CardVal) (rev : Bool) (name : Ast) (comp : String)
      (value : Ast) (h : HasTF value) : HasTF (.attrNode card rev name comp value)
  | dotBase (base : Ast) (attrs : List Ast) (h : HasTF base) :
      HasTF (.dottedPath base attrs)
  | dotAttr (base : Ast) (attrs : List Ast) (x : Ast) (hx : x ∈ attrs)
      (h : HasTF x) : HasTF (.dottedPath base attrs)
  | groupA (card : Option CardVal) (attrs : List Ast) (conjs : List String)
      (x : Ast) (hx : x ∈ attrs) (h : HasTF x) : HasTF (.attrGroup card attrs conjs)
  | nasItem (items : List Ast) (conjs : List String) (x : Ast) (hx : x ∈ items)
      (h : HasTF x) : HasTF (.nestedAttrSet items conjs)

/-- A complex inner expression for the parenthesis-alignment
counterexample: a refined expression, rendered inline when its refinement
is simple. -/
def innerRefined : Ast :=
  .refined (.subExpr (some "<<") (.conceptRef "404684003" none) [])
    (.refinementN
      [.attrNode none false (.subExpr none (.conceptRef "363698007" none) [])
        "=" (.subExpr (some "<<") (.conceptRef "39057004" none) [])] [])

/-- Alignment counterexample AST: the refined expression's base renders
multi-line (its focus is a complex nested expression), inflating the
threaded column of the inline refinement whose attribute value is a
second complex nested expression. -/
def misalignedAst : Ast :=
  .refined (.subExpr none (.nestedExpr innerRefined) [])
    (.refinementN
      [.attrNode none false (.subExpr none (.conceptRef "116676008" none) [])
        "=" (.subExpr none (.nestedExpr innerRefined) [])] [])

/-- Rendering of `misalignedAst` at indent 0, column 0, indent size 2. -/
def misalignedOut : String :=
  "(\n  << 404684003: 363698007 = << 39057004\n): 116676008 = (\n" ++
    spacesN 59 ++ "<< 404684003: 363698007 = << 39057004\n" ++ spacesN 57 ++ ")"

end Ecl

namespace Ecl

/-- C1: the claim fails on the code.  `LOINC#"54486-6"` is syntactically
valid and formats to `LOINC#54486-6`, but feeding that output back yields
`formatted = none` with an error (the printer drops the quotes because the
code matches `[a-zA-Z0-9_-]*`, the re-parse lexes `54486-6` as an
`AlternateIdCode` token, and the AST builder has no branch for that
alternative), so the second pass is not byte-identical to the first. -/
theorem c1_idempotence_code_bug :
    formatEcl "LOINC#\"54486-6\"" defaultOptions =
      ⟨some "LOINC#54486-6", none⟩ ∧
    formatEcl "LOINC#54486-6" defaultOptions =
      ⟨none, some "Error: Unknown alternate identifier code type"⟩ := by
  exact ⟨rfl, rfl⟩

/-- C2: the claim fails on the code.  For the valid input
`LOINC#"54486-6"` the first parse yields an alternate-identifier AST and
the formatter emits `LOINC#54486-6`, but parsing that formatted output
yields no AST at all (`ast = none`), so the round-trip cannot reproduce a
structurally equal tree. -/
theorem c2_roundtrip_code_bug :
    (parseEcl "LOINC#\"54486-6\"").ast =
      some (.subExpr none (.altIdent "LOINC" "54486-6") []) ∧
    (formatEcl "LOINC#\"54486-6\"" defaultOptions).formatted =
      some "LOINC#54486-6" ∧
    (parseEcl "LOINC#54486-6").ast = none := by
  exact ⟨rfl, rfl, rfl⟩

/-- C5 counterexample: the two spellings do NOT produce identical
`constraintOperator` values — the long form keeps its own tag in the AST
(`"descendantOf"`), distinct from the brief form's `"<"`.  Canonicalization
happens in the printer, not at AST construction. -/
theorem c5_counterexample :
    (parseEcl "descendantOf 404684003").ast =
      some (.subExpr (some "descendantOf") (.conceptRef "404684003" none) []) ∧
    (parseEcl "< 404684003").ast =
      some (.subExpr (some "<") (.conceptRef "404684003" none) []) ∧
    ("descendantOf" : String) ≠ "<" := by
  exact ⟨rfl, rfl, by decide⟩

/-- C5 amended: brief and long forms are canonicalized at printing time,
not at AST construction: `printConstraintOperator` maps both members of
each of the 9 operator pairs to the same brief form, so the formatted
outputs of long-form and brief-form inputs coincide. -/
theorem c5_operator_canonicalization_amended :
    printConstraintOperator "descendantOf" = printConstraintOperator "<" ∧
    printConstraintOperator "descendantOrSelfOf" = printConstraintOperator "<<" ∧
    printConstraintOperator "childOf" = printConstraintOperator "<!" ∧
    printConstraintOperator "childOrSelfOf" = printConstraintOperator "<<!" ∧
    printConstraintOperator "ancestorOf" = printConstraintOperator ">" ∧
    printConstraintOperator "ancestorOrSelfOf" = printConstraintOperator ">>" ∧
    printConstraintOperator "parentOf" = printConstraintOperator ">!" ∧
    printConstraintOperator "parentOrSelfOf" = printConstraintOperator ">>!" ∧
    printConstraintOperator "memberOf" = printConstraintOperator "^" ∧
    formatEcl "descendantOf 404684003" defaultOptions =
      formatEcl "< 404684003" defaultOptions := by
  exact ⟨rfl, rfl, rfl, rfl, rfl, rfl, rfl, rfl, rfl, rfl⟩

/-- C6 counterexample: a refinement mixing a comma and an `AND` between
three items is built with a conjunction list of length 1 (not N−1 = 2),
and its single entry is `"AND"` although the separator after the first
item was the comma. -/
theorem c6_counterexample :
    parseEcl "404684003: 363698007 = *, 116676008 = * AND 127489000 = *" =
      ⟨some (.refined (.subExpr none (.conceptRef "404684003" none) [])
        (.refinementN
          [.attrNode none false (.subExpr none (.conceptRef "363698007" none) [])
            "=" (.subExpr none .wildcardC []),
           .attrNode none false (.subExpr none (.conceptRef "116676008" none) [])
            "=" (.subExpr none .wildcardC []),
           .attrNode none false (.subExpr none (.conceptRef "127489000" none) [])
            "=" (.subExpr none .wildcardC [])]
          ["AND"])), []⟩ ∧
    (["AND"] : List String).length ≠ 3 - 1 := by
  exact ⟨rfl, by decide⟩

/-- C7: layout breaking is driven by structural complexity: the refinement
with two items renders with newlines, while the compound of two simple
operands stays on one line. -/
theorem c7_complexity_breaking :
    formatEcl "<<404684003:363698007=<<39057004,116676008=<<55641003" defaultOptions =
      ⟨some ("<< 404684003:\n  363698007 = << 39057004,\n  116676008 = << 55641003"),
        none⟩ ∧
    '\n' ∈ ("<< 404684003:\n  363698007 = << 39057004,\n  116676008 = << 55641003" : String).toList ∧
    formatEcl "<<404684003 AND <<987654321" defaultOptions =
      ⟨some "<< 404684003 AND << 987654321", none⟩ ∧
    '\n' ∉ ("<< 404684003 AND << 987654321" : String).toList := by
  exact ⟨rfl, by decide, rfl, by decide⟩

/-- C10 counterexample: the claim's inputs use `1` and `2` as concept IDs,
but the concept-identifier token requires 6 to 18 digits, so all three
spellings fail to parse and none produces the claimed output
`"<< 1 AND << 2"`. -/
theorem c10_counterexample :
    formatEcl "<< 1 and << 2" defaultOptions =
      ⟨none, some "NoViableAltException: eclFocusConcept"⟩ ∧
    formatEcl "<< 1 AND << 2" defaultOptions =
      ⟨none, some "NoViableAltException: eclFocusConcept"⟩ ∧
    formatEcl "<< 1 And << 2" defaultOptions =
      ⟨none, some "NoViableAltException: eclFocusConcept"⟩ ∧
    (FormatResult.mk none (some "NoViableAltException: eclFocusConcept") ≠
      ⟨some "<< 1 AND << 2", none⟩) := by
  refine ⟨rfl, rfl, rfl, ?_⟩
  intro h
  cases h

/-- C10 amended: with syntactically valid concept identifiers (6–18
digits), the three case spellings of the conjunction keyword all format to
the same output with the keyword normalized to uppercase. -/
theorem c10_case_normalization_amended :
    formatEcl "<< 404684003 and << 987654321" defaultOptions =
      ⟨some "<< 404684003 AND << 987654321", none⟩ ∧
    formatEcl "<< 404684003 AND << 987654321" defaultOptions =
      ⟨some "<< 404684003 AND << 987654321", none⟩ ∧
    formatEcl "<< 404684003 And << 987654321" defaultOptions =
      ⟨some "<< 404684003 AND << 987654321", none⟩ := by
  exact ⟨rfl, rfl, rfl⟩

end Ecl

namespace Ecl

/-- C8 counterexample: in the rendering of `misalignedAst` the second
nested expression is printed across multiple lines with its opening
parenthesis at column 15 (index 57) but its matching closing parenthesis
at column 57 (index 213): the closing parenthesis is not printed at the
column the opening parenthesis occupied.  (The threaded column was
inflated by the length, newlines included, of the multi-line base
rendered before it.) -/
theorem c8_counterexample :
    print 99 misalignedAst defaultOptions 0 0 = .ok misalignedOut ∧
    misalignedOut.toList.getD 57 ' ' = '(' ∧
    matchingClose misalignedOut 57 = some 213 ∧
    '\n' ∈ ((misalignedOut.toList.drop 57).take (213 - 57)) ∧
    colAt misalignedOut 57 = 15 ∧
    colAt misalignedOut 213 = 57 ∧
    (15 : Nat) ≠ 57 := by
  set_option maxRecDepth 4096 in
  exact ⟨rfl, by decide, by decide, by decide, by decide, by decide, by decide⟩

end Ecl

namespace Ecl

/-- C3: the format facade is a total function realizing the documented
error contract: whitespace-only input yields the `Empty input` error; the
result always carries exactly one of `formatted` and `error`; a parse
failure on the trimmed input surfaces the first reported error message
with `formatted = none`; and a printer exception is caught and returned
as the error instead of propagating. -/
theorem c3_facade_error_handling (s : String) (opts : FormattingOptions) :
    (jsTrim s = "" → formatEcl s opts = ⟨none, some "Empty input"⟩) ∧
    ((formatEcl s opts).formatted = none ↔ (formatEcl s opts).error.isSome) ∧
    (∀ es, jsTrim s ≠ "" → parseEcl (jsTrim s) = ⟨none, es⟩ →
      formatEcl s opts = ⟨none, some (es.headD "Parse error")⟩) ∧
    (∀ a e, jsTrim s ≠ "" → parseEcl (jsTrim s) = ⟨some a, []⟩ →
      print (printFuel (jsTrim s)) a opts 0 0 = .error e →
      formatEcl s opts = ⟨none, some e⟩) := by
  refine ⟨?_, ?_, ?_, ?_⟩
  · intro h
    simp [formatEcl, h]
  · simp only [formatEcl]
    split
    · simp
    · split
      · simp
      · split
        · simp
        · split <;> simp
  · intro es hne hp
    simp [formatEcl, hne, hp]
  · intro a e hne hp he
    simp [formatEcl, hne, hp, he]

/-- Witness for C3: the facade contract applied to concrete inputs — a
whitespace-only input and an unparseable input. -/
theorem c3_facade_witness :
    formatEcl "   " defaultOptions = ⟨none, some "Empty input"⟩ ∧
    formatEcl "<<< invalid" defaultOptions =
      ⟨none, some "NoViableAltException: eclFocusConcept"⟩ := by
  constructor
  · exact (c3_facade_error_handling "   " defaultOptions).1 rfl
  · exact (c3_facade_error_handling "<<< invalid" defaultOptions).2.2.1
      ["NoViableAltException: eclFocusConcept"] (by decide) rfl

end Ecl

namespace Ecl

theorem except_bind_error (e : String) (f : α → Except String β) :
    (Except.error e >>= f) = Except.error e := rfl

theorem except_bind_ok (v : α) (f : α → Except String β) :
    (Except.ok v >>= f) = f v := rfl

theorem printFilterConstraint_hasTF (x : Ast) (h : HasTF x) :
    ∃ e, printFilterConstraint x = .error e := by
  cases h <;> exact ⟨_, rfl⟩

theorem mapPFC_error (cs : List Ast) (x : Ast) (hx : x ∈ cs)
    (he : ∃ e, printFilterConstraint x = .error e) :
    ∃ e, mapPFC cs = .error e := by
  induction cs with
  | nil => cases hx
  | cons a l ih =>
      rcases List.mem_cons.mp hx with rfl | hmem
      · obtain ⟨e, he⟩ := he
        exact ⟨e, by simp [mapPFC, he, except_bind_error]⟩
      · cases hpa : printFilterConstraint a with
        | error e => exact ⟨e, by simp [mapPFC, hpa, except_bind_error]⟩
        | ok v =>
            obtain ⟨e, he2⟩ := ih hmem
            exact ⟨e, by simp [mapPFC, hpa, he2, except_bind_error, except_bind_ok]⟩

theorem printFilter_hasTF (cs : List Ast) (conjs : List String) (x : Ast)
    (hx : x ∈ cs) (h : HasTF x) :
    ∃ e, printFilter (.filterN cs conjs) = .error e := by
  obtain ⟨e, he⟩ := mapPFC_error cs x hx (printFilterConstraint_hasTF x h)
  exact ⟨e, by simp [printFilter, he, except_bind_error]⟩

theorem printedAtFixed_error (items : List Ast) (x : Ast) (hx : x ∈ items)
    (hH : ∀ fuel opts ind col, ∃ e, print fuel x opts ind col = .error e) :
    ∀ fuel opts ind, ∃ e, printedAtFixed fuel items opts ind = .error e := by
  induction items with
  | nil => cases hx
  | cons a l ih =>
      intro fuel opts ind
      cases fuel with
      | zero => exact ⟨_, rfl⟩
      | succ fuel =>
          rcases List.mem_cons.mp hx with rfl | hmem
          · obtain ⟨e, he⟩ := hH fuel opts ind ind
            exact ⟨e, by simp [printedAtFixed, he, except_bind_error]⟩
          · cases hpa : print fuel a opts ind ind with
            | error e => exact ⟨e, by simp [printedAtFixed, hpa, except_bind_error]⟩
            | ok v =>
                obtain ⟨e, he2⟩ := ih hmem fuel opts ind
                exact ⟨e, by simp [printedAtFixed, hpa, he2, except_bind_ok,
                  except_bind_error]⟩

theorem printedInline_error (items : List Ast) (x : Ast) (hx : x ∈ items)
    (hH : ∀ fuel opts ind col, ∃ e, print fuel x opts ind col = .error e) :
    ∀ fuel conjs opts ind col,
      ∃ e, printedInline fuel items conjs opts ind col = .error e := by
  induction items with
  | nil => cases hx
  | cons a l ih =>
      intro fuel conjs opts ind col
      cases fuel with
      | zero => exact ⟨_, rfl⟩
      | succ fuel =>
          rcases List.mem_cons.mp hx with rfl | hmem
          · obtain ⟨e, he⟩ := hH fuel opts ind col
            exact ⟨e, by simp [printedInline, he, except_bind_error]⟩
          · cases hpa : print fuel a opts ind col with
            | error e => exact ⟨e, by simp [printedInline, hpa, except_bind_error]⟩
            | ok v =>
                obtain ⟨e, he2⟩ := ih hmem fuel conjs.tail opts ind
                  (col + v.length + inlineSepLen l conjs)
                exact ⟨e, by simp [printedInline, hpa, he2, except_bind_ok,
                  except_bind_error]⟩

theorem printSubFilters_error (filters : List Ast) (g : Ast)
    (hm : g ∈ filters) (hfe : ∃ e, printFilter g = .error e) :
    ∀ fuel opts ind col, ∃ e, printSubFilters fuel filters opts ind col = .error e := by
  induction filters with
  | nil => cases hm
  | cons a l ih =>
      intro fuel opts ind col
      cases fuel with
      | zero => exact ⟨_, rfl⟩
      | succ fuel =>
          rcases List.mem_cons.mp hm with rfl | hmem
          · obtain ⟨e, he⟩ := hfe
            exact ⟨e, by simp [printSubFilters, he, except_bind_error]⟩
          · cases hpa : printFilter a with
            | error e => exact ⟨e, by simp [printSubFilters, hpa, except_bind_error]⟩
            | ok v =>
                obtain ⟨e, he2⟩ := ih hmem fuel opts ind (col + 1 + v.length)
                exact ⟨e, by simp [printSubFilters, hpa, he2, except_bind_ok,
                  except_bind_error]⟩

theorem dottedLoop_error (attrs : List Ast) (x : Ast) (hx : x ∈ attrs)
    (hH : ∀ fuel opts ind col, ∃ e, print fuel x opts ind col = .error e) :
    ∀ fuel opts ind col acc, ∃ e, dottedLoop fuel attrs opts ind col acc = .error e := by
  induction attrs with
  | nil => cases hx
  | cons a l ih =>
      intro fuel opts ind col acc
      cases fuel with
      | zero => exact ⟨_, rfl⟩
      | succ fuel =>
          rcases List.mem_cons.mp hx with rfl | hmem
          · obtain ⟨e, he⟩ := hH fuel opts ind (col + 3)
            exact ⟨e, by simp [dottedLoop, he, except_bind_error]⟩
          · cases hpa : print fuel a opts ind (col + 3) with
            | error e => exact ⟨e, by simp [dottedLoop, hpa, except_bind_error]⟩
            | ok v =>
                obtain ⟨e, he2⟩ := ih hmem fuel opts ind (col + 3 + v.length)
                  (acc ++ " . " ++ v)
                exact ⟨e, by simp [dottedLoop, hpa, he2, except_bind_ok,
                  except_bind_error]⟩

end Ecl

namespace Ecl

theorem printRefinement_error (items : List Ast) (conjs : List String) (x : Ast)
    (hx : x ∈ items)
    (hH : ∀ fuel opts ind col, ∃ e, print fuel x opts ind col = .error e) :
    ∀ fuel opts ind col, ∃ e, printRefinement fuel items conjs opts ind col = .error e := by
  intro fuel opts ind col
  cases fuel with
  | zero => exact ⟨_, rfl⟩
  | succ fuel =>
      cases hsb : shouldBreakRefinement items with
      | error e => exact ⟨e, by simp [printRefinement, hsb, except_bind_error]⟩
      | ok b =>
          cases b with
          | true =>
              obtain ⟨e, he⟩ := printedAtFixed_error items x hx hH fuel opts ind
              exact ⟨e, by simp [printRefinement, hsb, he, except_bind_ok,
                except_bind_error]⟩
          | false =>
              obtain ⟨e, he⟩ := printedInline_error items x hx hH fuel conjs opts ind col
              exact ⟨e, by simp [printRefinement, hsb, he, except_bind_ok,
                except_bind_error]⟩

end Ecl

namespace Ecl

theorem print_hasTF_error (n : Nat) :
    ∀ t : Ast, sizeOf t ≤ n → HasTF t →
      ∀ fuel opts ind col, ∃ e, print fuel t opts ind col = .error e := by
  induction n with
  | zero =>
      intro t hsz h
      cases h <;> simp at hsz
  | succ n ih =>
      intro t hsz h fuel opts ind col
      cases fuel with
      | zero => exact ⟨_, rfl⟩
      | succ fuel =>
          cases h with
          | self op v => exact ⟨_, rfl⟩
          | nasItem items conjs x hx hxh => exact ⟨_, rfl⟩
          | filterC cs conjs x hx hxh =>
              obtain ⟨e, he⟩ := printFilter_hasTF cs conjs x hx hxh
              exact ⟨e, he⟩
          | groupA card attrs conjs x hx hxh =>
              cases fuel with
              | zero => exact ⟨_, rfl⟩
              | succ fuel => exact ⟨_, rfl⟩
          | compoundL op l r hl =>
              have hszl : sizeOf l ≤ n := by simp at hsz; omega
              cases fuel with
              | zero => exact ⟨_, rfl⟩
              | succ fuel =>
                  cases hsb : shouldBreakCompound l r with
                  | error e =>
                      exact ⟨e, by simp [print, printCompound, hsb, except_bind_error]⟩
                  | ok b =>
                      obtain ⟨e, he⟩ := ih l hszl hl fuel opts ind col
                      exact ⟨e, by simp [print, printCompound, hsb, he,
                        except_bind_ok, except_bind_error]⟩
          | compoundR op l r hr =>
              have hszr : sizeOf r ≤ n := by simp at hsz; omega
              cases fuel with
              | zero => exact ⟨_, rfl⟩
              | succ fuel =>
                  cases hsb : shouldBreakCompound l r with
                  | error e =>
                      exact ⟨e, by simp [print, printCompound, hsb, except_bind_error]⟩
                  | ok b =>
                      cases hpl : print fuel l opts ind col with
                      | error e =>
                          exact ⟨e, by simp [print, printCompound, hsb, hpl,
                            except_bind_ok, except_bind_error]⟩
                      | ok lv =>
                          cases b with
                          | false =>
                              obtain ⟨e, he⟩ := ih r hszr hr fuel opts ind
                                (col + lv.length + 1 + op.length + 1)
                              exact ⟨e, by simp [print, printCompound, hsb, hpl, he,
                                except_bind_ok, except_bind_error]⟩
                          | true =>
                              simp only [print, printCompound, hsb, hpl,
                                except_bind_ok, except_bind_error, if_true]
                              split
                              · rename_i inner
                                cases hr with
                                | subFilter _ _ _ cs conjs hm hfn =>
                                    exact absurd hm (List.not_mem_nil _)
                                | subFocus _ _ _ hf =>
                                    cases hf with
                                    | nestedE _ hi =>
                                        have hszi : sizeOf inner ≤ n := by
                                          simp at hsz; omega
                                        obtain ⟨e, he⟩ := ih inner hszi hi fuel opts
                                          (ind + op.length + opts.indentSize)
                                          (ind + op.length + opts.indentSize)
                                        exact ⟨e, by simp [he, except_bind_error]⟩
                              · obtain ⟨e, he⟩ := ih r hszr hr fuel opts ind
                                  (ind + op.length + 1)
                                exact ⟨e, by simp [he, except_bind_error]⟩
          | refItem items conjs x hx hxh =>
              have hszx : sizeOf x ≤ n := by
                have := List.sizeOf_lt_of_mem hx
                simp at hsz; omega
              obtain ⟨er, he⟩ := printRefinement_error items conjs x hx
                (ih x hszx hxh) fuel opts ind col
              exact ⟨er, he⟩
          | refinedE e r hre =>
              have hsze : sizeOf e ≤ n := by simp at hsz; omega
              cases fuel with
              | zero => exact ⟨_, rfl⟩
              | succ fuel =>
                  obtain ⟨er, he⟩ := ih e hsze hre fuel opts ind col
                  exact ⟨er, by simp [print, printRefined, he, except_bind_error]⟩
          | refinedR e items conjs hri =>
              cases hri with
              | refItem _ _ x hx hxh =>
                  have hszx : sizeOf x ≤ n := by
                    have := List.sizeOf_lt_of_mem hx
                    simp at hsz; omega
                  have hP := ih x hszx hxh
                  have hR := printRefinement_error items conjs x hx hP
                  cases fuel with
                  | zero => exact ⟨_, rfl⟩
                  | succ fuel =>
                      cases hpe : print fuel e opts ind col with
                      | error er =>
                          exact ⟨er, by simp [print, printRefined, hpe,
                            except_bind_error]⟩
                      | ok v =>
                          cases hsb : shouldBreakRefinement items with
                          | error er =>
                              exact ⟨er, by simp [print, printRefined, hpe, hsb,
                                except_bind_ok, except_bind_error]⟩
                          | ok b =>
                              cases b with
                              | true =>
                                  obtain ⟨er, he⟩ := hR fuel opts
                                    (ind + opts.indentSize) (ind + opts.indentSize)
                                  exact ⟨er, by simp [print, printRefined, hpe, hsb, he,
                                    except_bind_ok, except_bind_error]⟩
                              | false =>
                                  obtain ⟨er, he⟩ := hR fuel opts ind
                                    (col + v.length + 2)
                                  exact ⟨er, by simp [print, printRefined, hpe, hsb, he,
                                    except_bind_ok, except_bind_error]⟩
          | nestedE e he' =>
              have hsze : sizeOf e ≤ n := by simp at hsz; omega
              cases fuel with
              | zero => exact ⟨_, rfl⟩
              | succ fuel =>
                  cases hic : isComplex e with
                  | error er =>
                      exact ⟨er, by simp [print, printNestedExpression, hic,
                        except_bind_error]⟩
                  | ok b =>
                      cases b with
                      | false =>
                          obtain ⟨er, he⟩ := ih e hsze he' fuel opts ind (col + 1)
                          exact ⟨er, by simp [print, printNestedExpression, hic, he,
                            except_bind_ok, except_bind_error]⟩
                      | true =>
                          simp only [print, printNestedExpression, hic,
                            except_bind_ok, except_bind_error, Bool.not_true,
                            Bool.false_eq_true, if_false]
                          split
                          · obtain ⟨er, he⟩ := ih e hsze he' fuel opts (col + 1) (col + 1)
                            exact ⟨er, by simp [he, except_bind_error]⟩
                          · obtain ⟨er, he⟩ := ih e hsze he' fuel opts
                              (col + opts.indentSize) (col + opts.indentSize)
                            exact ⟨er, by simp [he, except_bind_error]⟩
          | subFocus op focus filters hf =>
              have hszf : sizeOf focus ≤ n := by simp at hsz; omega
              cases fuel with
              | zero => exact ⟨_, rfl⟩
              | succ fuel =>
                  rcases op with _ | o
                  · obtain ⟨er, he⟩ := ih focus hszf hf fuel opts ind col
                    exact ⟨er, by simp [print, printSubExpression, he,
                      except_bind_error]⟩
                  · obtain ⟨er, he⟩ := ih focus hszf hf fuel opts ind
                      (col + (printConstraintOperator o).length + 1)
                    exact ⟨er, by simp [print, printSubExpression, he,
                      except_bind_error]⟩
          | subFilter op focus filters cs conjs hm hfn =>
              have hfe : ∃ e, printFilter (.filterN cs conjs) = .error e := by
                cases hfn with
                | filterC _ _ x hx hxh => exact printFilter_hasTF cs conjs x hx hxh
              have hS := printSubFilters_error filters (.filterN cs conjs) hm hfe
              cases fuel with
              | zero => exact ⟨_, rfl⟩
              | succ fuel =>
                  rcases op with _ | o
                  · cases hpf : print fuel focus opts ind col with
                    | error er =>
                        exact ⟨er, by simp [print, printSubExpression, hpf,
                          except_bind_error]⟩
                    | ok fv =>
                        obtain ⟨er, he⟩ := hS fuel opts ind (col + fv.length)
                        exact ⟨er, by simp [print, printSubExpression, hpf, he,
                          except_bind_ok, except_bind_error]⟩
                  · cases hpf : print fuel focus opts ind
                      (col + (printConstraintOperator o).length + 1) with
                    | error er =>
                        exact ⟨er, by simp [print, printSubExpression, hpf,
                          except_bind_error]⟩
                    | ok fv =>
                        obtain ⟨er, he⟩ := hS fuel opts ind
                          (col + (printConstraintOperator o).length + 1 + fv.length)
                        exact ⟨er, by simp [print, printSubExpression, hpf, he,
                          except_bind_ok, except_bind_error]⟩
          | attrName card rev name comp value hn =>
              have hszn : sizeOf name ≤ n := by simp at hsz; omega
              cases fuel with
              | zero => exact ⟨_, rfl⟩
              | succ fuel =>
                  rcases card with _ | c <;> cases rev
                  · obtain ⟨er, he⟩ := ih name hszn hn fuel opts ind col
                    exact ⟨er, by simp [print, printAttribute, he, except_bind_error]⟩
                  · obtain ⟨er, he⟩ := ih name hszn hn fuel opts ind (col + 2)
                    exact ⟨er, by simp [print, printAttribute, he, except_bind_error]⟩
                  · obtain ⟨er, he⟩ := ih name hszn hn fuel opts ind
                      (col + (printCardinalityStr c).length + 1)
                    exact ⟨er, by simp [print, printAttribute, he, except_bind_error]⟩
                  · obtain ⟨er, he⟩ := ih name hszn hn fuel opts ind
                      (col + (printCardinalityStr c).length + 1 + 2)
                    exact ⟨er, by simp [print, printAttribute, he, except_bind_error]⟩
          | attrValue card rev name comp value hv =>
              have hszv : sizeOf value ≤ n := by simp at hsz; omega
              cases fuel with
              | zero => exact ⟨_, rfl⟩
              | succ fuel =>
                  rcases card with _ | c <;> cases rev
                  · cases hpn : print fuel name opts ind col with
                    | error er =>
                        exact ⟨er, by simp [print, printAttribute, hpn,
                          except_bind_error]⟩
                    | ok nv =>
                        obtain ⟨er, he⟩ := ih value hszv hv fuel opts ind
                          (col + nv.length + 1 + comp.length + 1)
                        exact ⟨er, by simp [print, printAttribute, hpn, he,
                          except_bind_ok, except_bind_error]⟩
                  · cases hpn : print fuel name opts ind (col + 2) with
                    | error er =>
                        exact ⟨er, by simp [print, printAttribute, hpn,
                          except_bind_error]⟩
                    | ok nv =>
                        obtain ⟨er, he⟩ := ih value hszv hv fuel opts ind
                          (col + 2 + nv.length + 1 + comp.length + 1)
                        exact ⟨er, by simp [print, printAttribute, hpn, he,
                          except_bind_ok, except_bind_error]⟩
                  · cases hpn : print fuel name opts ind
                      (col + (printCardinalityStr c).length + 1) with
                    | error er =>
                        exact ⟨er, by simp [print, printAttribute, hpn,
                          except_bind_error]⟩
                    | ok nv =>
                        obtain ⟨er, he⟩ := ih value hszv hv fuel opts ind
                          (col + (printCardinalityStr c).length + 1 + nv.length + 1 +
                            comp.length + 1)
                        exact ⟨er, by simp [print, printAttribute, hpn, he,
                          except_bind_ok, except_bind_error]⟩
                  · cases hpn : print fuel name opts ind
                      (col + (printCardinalityStr c).length + 1 + 2) with
                    | error er =>
                        exact ⟨er, by simp [print, printAttribute, hpn,
                          except_bind_error]⟩
                    | ok nv =>
                        obtain ⟨er, he⟩ := ih value hszv hv fuel opts ind
                          (col + (printCardinalityStr c).length + 1 + 2 + nv.length +
                            1 + comp.length + 1)
                        exact ⟨er, by simp [print, printAttribute, hpn, he,
                          except_bind_ok, except_bind_error]⟩
          | dotBase base attrs hb =>
              have hszb : sizeOf base ≤ n := by simp at hsz; omega
              cases fuel with
              | zero => exact ⟨_, rfl⟩
              | succ fuel =>
                  obtain ⟨er, he⟩ := ih base hszb hb fuel opts ind col
                  exact ⟨er, by simp [print, printDottedAttributePath, he,
                    except_bind_error]⟩
          | dotAttr base attrs x hx hxh =>
              have hszx : sizeOf x ≤ n := by
                have := List.sizeOf_lt_of_mem hx
                simp at hsz; omega
              have hD := dottedLoop_error attrs x hx (ih x hszx hxh)
              cases fuel with
              | zero => exact ⟨_, rfl⟩
              | succ fuel =>
                  cases hpb : print fuel base opts ind col with
                  | error er =>
                      exact ⟨er, by simp [print, printDottedAttributePath, hpb,
                        except_bind_error]⟩
                  | ok bv =>
                      obtain ⟨er, he⟩ := hD fuel opts ind (col + bv.length) bv
                      exact ⟨er, by simp [print, printDottedAttributePath, hpb, he,
                        except_bind_ok, except_bind_error]⟩

end Ecl
namespace Ecl

/-- C4: the visitor builds term filters with a singular value and no
`values` array, and the printer dereferences `values`, so every
successfully parsed AST containing a term filter makes printing raise the
`TypeError`, and `formatEcl` returns no formatted text and a non-null
error for the (syntactically valid) input. -/
theorem c4_term_filter_crash (s : String) (opts : FormattingOptions) (a : Ast)
    (hp : parseEcl (jsTrim s) = ⟨some a, []⟩) (h : HasTF a) :
    (∃ e, print (printFuel (jsTrim s)) a opts 0 0 = .error e) ∧
    (formatEcl s opts).formatted = none ∧
    (formatEcl s opts).error ≠ none ∧
    ∀ (op : Option Tok) (strs : List Tok),
      ∃ o v, buildTermFilter op strs = .termFilterN o v none := by
  obtain ⟨e, he⟩ := print_hasTF_error (sizeOf a) a le_rfl h (printFuel (jsTrim s)) opts 0 0
  have hne : ¬ (jsTrim s = "") := by
    intro h0
    rw [h0] at hp
    have hnil : (parseEcl "").ast = none := rfl
    rw [hp] at hnil
    simp at hnil
  have hfmt : formatEcl s opts = ⟨none, some e⟩ := by
    simp [formatEcl, hne, hp, he]
  refine ⟨⟨e, he⟩, ?_, ?_, ?_⟩
  · rw [hfmt]
  · rw [hfmt]; simp
  · intro op strs
    exact ⟨_, _, rfl⟩

/-- C4 witness: the concrete input with a term filter parses cleanly yet
formats to no text with a non-null error. -/
theorem c4_term_filter_witness :
    (formatEcl ("<< 404684003 \x7b\x7b term = \"heart\" \x7d\x7d") defaultOptions).formatted
      = none ∧
    (formatEcl ("<< 404684003 \x7b\x7b term = \"heart\" \x7d\x7d") defaultOptions).error
      ≠ none := by
  have h := c4_term_filter_crash ("<< 404684003 \x7b\x7b term = \"heart\" \x7d\x7d")
    defaultOptions
    (.subExpr (some "<<") (.conceptRef "404684003" none)
      [.filterN [.termFilterN none (some "heart") none] []])
    (by rfl)
    (HasTF.subFilter (some "<<") (.conceptRef "404684003" none)
      [.filterN [.termFilterN none (some "heart") none] []]
      [.termFilterN none (some "heart") none] []
      (List.Mem.head _)
      (HasTF.filterC [.termFilterN none (some "heart") none] []
        (.termFilterN none (some "heart") none) (List.Mem.head _)
        (HasTF.self none (some "heart"))))
  exact ⟨h.2.1, h.2.2.1⟩

end Ecl

namespace Ecl

theorem countSep_all (seps : List Tok) (k : TokKind)
    (h : ∀ t ∈ seps, t.kind = k) : countSep seps k = seps.length := by
  induction seps with
  | nil => rfl
  | cons a l ih =>
      have ha : a.kind = k := h a (by simp)
      have ih2 := ih (fun t ht => h t (by simp [ht]))
      simp [countSep, List.filter_cons, ha, ih2]
      intro t ht
      exact h t (List.mem_cons_of_mem _ ht)

theorem countSep_none (seps : List Tok) (k q : TokKind)
    (h : ∀ t ∈ seps, t.kind = k) (hne : ¬ (k = q)) : countSep seps q = 0 := by
  induction seps with
  | nil => rfl
  | cons a l ih =>
      have ha : a.kind = k := h a (by simp)
      have hq : ¬ (a.kind = q) := by rw [ha]; exact hne
      have ih2 := ih (fun t ht => h t (by simp [ht]))
      simp [countSep, List.filter_cons, hq] at ih2 ⊢
      exact ih2

theorem filterMap_const_eq_replicate (L : List Nat) (c : String)
    (g : Nat → Option String) (h : ∀ x ∈ L, g x = some c) :
    L.filterMap g = List.replicate L.length c := by
  induction L with
  | nil => rfl
  | cons a l ih =>
      rw [List.filterMap_cons, h a (by simp),
        ih (fun x hx => h x (by simp [hx]))]
      rfl

theorem map_const_eq_replicate (seps : List Tok) (c : String)
    (h : ∀ t ∈ seps, sepString t = c) :
    seps.map sepString = List.replicate seps.length c := by
  induction seps with
  | nil => rfl
  | cons a l ih =>
      rw [List.map_cons, h a (by simp), ih (fun t ht => h t (by simp [ht]))]
      rfl

theorem visitorConjFold_and (m : Nat) :
    visitorConjFold (m + 1) m 0 0 = List.replicate m "AND" := by
  unfold visitorConjFold
  rw [show m + 1 - 1 = m by omega]
  have h := filterMap_const_eq_replicate (List.range m) "AND"
    (fun idx => if idx < m then some "AND"
      else if idx < 0 then some "OR" else if idx < 0 then some "," else none)
    (fun x hx => by simp [List.mem_range.mp hx])
  rw [List.length_range] at h
  exact h

theorem visitorConjFold_or (m : Nat) :
    visitorConjFold (m + 1) 0 m 0 = List.replicate m "OR" := by
  unfold visitorConjFold
  rw [show m + 1 - 1 = m by omega]
  have h := filterMap_const_eq_replicate (List.range m) "OR"
    (fun idx => if idx < 0 then some "AND"
      else if idx < m then some "OR" else if idx < 0 then some "," else none)
    (fun x hx => by simp [List.mem_range.mp hx])
  rw [List.length_range] at h
  exact h

theorem visitorConjFold_comma (m : Nat) :
    visitorConjFold (m + 1) 0 0 m = List.replicate m "," := by
  unfold visitorConjFold
  rw [show m + 1 - 1 = m by omega]
  have h := filterMap_const_eq_replicate (List.range m) ","
    (fun idx => if idx < 0 then some "AND"
      else if idx < 0 then some "OR" else if idx < m then some "," else none)
    (fun x hx => by simp [List.mem_range.mp hx])
  rw [List.length_range] at h
  exact h

/-- Uniform separator lists fold correctly: when every separator token in
`seps` has the same separator kind, the index-based fold over the three
per-kind counts yields exactly the separator strings that appeared in the
input. -/
theorem visitorConjFold_uniform (k : TokKind) (hk : isSepKind k = true)
    (seps : List Tok) (hs : ∀ t ∈ seps, t.kind = k) (n : Nat)
    (hn : n = seps.length + 1) :
    visitorConjFold n (countSep seps .andK) (countSep seps .orK)
      (countSep seps .comma) = seps.map sepString := by
  cases k <;> simp [isSepKind] at hk
  · rw [countSep_all seps .andK hs,
      countSep_none seps .andK .orK hs (by intro hq; cases hq),
      countSep_none seps .andK .comma hs (by intro hq; cases hq),
      hn, visitorConjFold_and,
      map_const_eq_replicate seps "AND"
        (fun t ht => by simp [sepString, hs t ht])]
  · rw [countSep_all seps .orK hs,
      countSep_none seps .orK .andK hs (by intro hq; cases hq),
      countSep_none seps .orK .comma hs (by intro hq; cases hq),
      hn, visitorConjFold_or,
      map_const_eq_replicate seps "OR"
        (fun t ht => by simp [sepString, hs t ht])]
  · rw [countSep_all seps .comma hs,
      countSep_none seps .comma .andK hs (by intro hq; cases hq),
      countSep_none seps .comma .orK hs (by intro hq; cases hq),
      hn, visitorConjFold_comma,
      map_const_eq_replicate seps ","
        (fun t ht => by simp [sepString, hs t ht])]

/-- With every per-kind count zero the index-based fold is empty, whatever
the item count. -/
theorem visitorConjFold_zero (n : Nat) : visitorConjFold n 0 0 0 = [] := by
  simp [visitorConjFold]

/-- C6 (amended): the index-based conjunction fold is correct precisely on
uniform separator lists, and only for the folds that check the separator
kind in question.  A refinement or attribute-set list whose N items are
all separated by the same token (all AND, all OR, or all commas) builds
exactly the N-1 separators that appeared in the input.  A filter list does
so only for uniform AND or uniform OR: the filter visitor has no comma
branch, so a uniform comma-separated filter list, which the grammar
accepts, builds an empty conjunction list instead of N-1 entries. -/
theorem c6_uniform_conjunctions_amended :
    (∀ (k : TokKind), isSepKind k = true →
      ∀ (seps : List Tok), (∀ t ∈ seps, t.kind = k) →
      ∀ (items : List CstRefItem), items.length = seps.length + 1 →
      ∀ (fuel : Nat) (built : List Ast), buildRefItems fuel items = .ok built →
        buildRefinement (fuel + 1) (.mk items seps) =
          .ok (.refinementN built (seps.map sepString)) ∧
        (seps.map sepString).length = items.length - 1) ∧
    (∀ (k : TokKind), isSepKind k = true →
      ∀ (seps : List Tok), (∀ t ∈ seps, t.kind = k) →
      ∀ (items : List CstSubAttrSet), items.length = seps.length + 1 →
      ∀ (fuel : Nat) (built : List Ast), buildAttrSetItems fuel items = .ok built →
        buildAttrSet (fuel + 1) (.mk items seps) =
          .ok (built, seps.map sepString) ∧
        (seps.map sepString).length = items.length - 1) ∧
    (∀ (k : TokKind), k = TokKind.andK ∨ k = TokKind.orK →
      ∀ (seps : List Tok), (∀ t ∈ seps, t.kind = k) →
      ∀ (filters : List CstFilterOne), filters.length = seps.length + 1 →
        buildFilterConstraint ⟨filters, seps⟩ =
          .filterN (filters.map buildFilterOne) (seps.map sepString) ∧
        (seps.map sepString).length = filters.length - 1) ∧
    (∀ (seps : List Tok), ¬ (seps = []) →
      (∀ t ∈ seps, t.kind = TokKind.comma) →
      ∀ (filters : List CstFilterOne), filters.length = seps.length + 1 →
        buildFilterConstraint ⟨filters, seps⟩ =
          .filterN (filters.map buildFilterOne) [] ∧
        ¬ (([] : List String).length = filters.length - 1)) := by
  refine ⟨?_, ?_, ?_, ?_⟩
  · intro k hk seps hs items hlen fuel built hb
    have hfold := visitorConjFold_uniform k hk seps hs items.length hlen
    constructor
    · simp [buildRefinement, hb, except_bind_ok, hfold]
    · rw [List.length_map, hlen]
      omega
  · intro k hk seps hs items hlen fuel built hb
    have hfold := visitorConjFold_uniform k hk seps hs items.length hlen
    constructor
    · simp [buildAttrSet, hb, except_bind_ok, hfold]
    · rw [List.length_map, hlen]
      omega
  · intro k hk seps hs filters hlen
    have hfold : visitorConjFold filters.length (countSep seps .andK)
        (countSep seps .orK) 0 = seps.map sepString := by
      rcases hk with rfl | rfl
      · rw [countSep_all seps .andK hs,
          countSep_none seps .andK .orK hs (by intro hq; cases hq),
          hlen, visitorConjFold_and,
          map_const_eq_replicate seps "AND"
            (fun t ht => by simp [sepString, hs t ht])]
      · rw [countSep_all seps .orK hs,
          countSep_none seps .orK .andK hs (by intro hq; cases hq),
          hlen, visitorConjFold_or,
          map_const_eq_replicate seps "OR"
            (fun t ht => by simp [sepString, hs t ht])]
    constructor
    · simp [buildFilterConstraint, hfold]
    · rw [List.length_map, hlen]
      omega
  · intro seps hne hs filters hlen
    constructor
    · have h1 : countSep seps .andK = 0 :=
        countSep_none seps .comma .andK hs (by intro hq; cases hq)
      have h2 : countSep seps .orK = 0 :=
        countSep_none seps .comma .orK hs (by intro hq; cases hq)
      simp [buildFilterConstraint, h1, h2, visitorConjFold_zero]
    · have hpos : 0 < seps.length := List.length_pos.mpr hne
      rw [hlen]
      simp only [List.length_nil]
      omega

/-- C6 witness: two refinement items separated by one comma build to a
refinement with the single conjunction entry `","`, while two filters
separated by one comma build a filter node with an empty conjunction
list. -/
theorem c6_uniform_witness :
    (buildRefinement 21
      (.mk [.mk none (.sub (.attr (.mk none (.mk none .wildcard [])
              ⟨.equals, "=", 0⟩ (.lit ⟨.trueK, "true", 0⟩)))),
            .mk none (.sub (.attr (.mk none (.mk none .wildcard [])
              ⟨.equals, "=", 0⟩ (.lit ⟨.trueK, "true", 0⟩))))]
        [⟨.comma, ",", 0⟩]) =
      .ok (.refinementN
        [.attrNode none false (.subExpr none .wildcardC []) "=" (.booleanValue true),
         .attrNode none false (.subExpr none .wildcardC []) "=" (.booleanValue true)]
        [","]) ∧
    ([(⟨.comma, ",", 0⟩ : Tok)].map sepString).length = 2 - 1) ∧
    (buildFilterConstraint ⟨[.activeF true, .activeF true], [⟨.comma, ",", 0⟩]⟩ =
      .filterN [.activeFilterN true, .activeFilterN true] [] ∧
    ¬ (([] : List String).length = 2 - 1)) := by
  constructor
  · exact c6_uniform_conjunctions_amended.1 .comma rfl [⟨.comma, ",", 0⟩]
      (by intro t ht; rw [List.mem_singleton] at ht; subst ht; rfl)
      [.mk none (.sub (.attr (.mk none (.mk none .wildcard [])
          ⟨.equals, "=", 0⟩ (.lit ⟨.trueK, "true", 0⟩)))),
       .mk none (.sub (.attr (.mk none (.mk none .wildcard [])
          ⟨.equals, "=", 0⟩ (.lit ⟨.trueK, "true", 0⟩))))]
      rfl 20
      [.attrNode none false (.subExpr none .wildcardC []) "=" (.booleanValue true),
       .attrNode none false (.subExpr none .wildcardC []) "=" (.booleanValue true)]
      rfl
  · exact c6_uniform_conjunctions_amended.2.2.2 [⟨.comma, ",", 0⟩]
      (by intro h; cases h)
      (by intro t ht; rw [List.mem_singleton] at ht; subst ht; rfl)
      [.activeF true, .activeF true] rfl

end Ecl

namespace Ecl

theorem takeWhile_nl (l1 l2 : List Char) (h : ∀ c ∈ l1, ¬ (c = '\n')) :
    (l1 ++ '\n' :: l2).takeWhile (fun c => !(c = '\n')) = l1 := by
  induction l1 with
  | nil => simp [List.takeWhile]
  | cons a t ih =>
      have ha := h a (by simp)
      simp [List.takeWhile, ha, ih (fun c hc => h c (by simp [hc]))]

theorem lastLine_of_toList (s b : String) (a : List Char)
    (hs : s.toList = a ++ '\n' :: b.toList)
    (hb : ∀ c ∈ b.toList, ¬ (c = '\n')) : lastLine s = b := by
  unfold lastLine
  rw [hs]
  simp only [List.reverse_append, List.reverse_cons, List.append_assoc,
    List.singleton_append]
  rw [takeWhile_nl _ _ (by intro c hc; exact hb c (List.mem_reverse.mp hc))]
  rw [List.reverse_reverse]
  cases b
  rfl

theorem no_nl_closing (n : Nat) :
    ∀ c ∈ (spacesN n ++ ")").toList, ¬ (c = '\n') := by
  intro c hc
  have hx : (spacesN n ++ ")").toList = List.replicate n ' ' ++ [')'] := by
    simp [spacesN, String.toList]
  rw [hx] at hc
  rcases List.mem_append.mp hc with h1 | h2
  · have := List.eq_of_mem_replicate h1
    subst this; intro hq; cases hq
  · simp at h2
    subst h2; intro hq; cases hq

/-- C8 (amended): in the multi-line branch of `printNestedExpression` the
rendered string opens with `(` and its final line is exactly the threaded
column's spaces followed by `)`; in the glued operator-parenthesis form of
a broken `CompoundExpression` the opening parenthesis sits at column
`indent + operator.length` and the final line closes at that same
column. -/
theorem c8_closing_paren_amended :
    (∀ fuel inner opts ind col s, isComplex inner = .ok true →
        printNestedExpression (fuel + 1) inner opts ind col = .ok s →
        s.toList.head? = some '(' ∧ lastLine s = spacesN col ++ ")") ∧
    (∀ fuel op l inner opts ind col s,
        shouldBreakCompound l (.subExpr none (.nestedExpr inner) []) = .ok true →
        printCompound (fuel + 1) op l (.subExpr none (.nestedExpr inner) [])
          opts ind col = .ok s →
        lastLine s = spacesN (ind + op.length) ++ ")" ∧
        ∃ leftStr innerStr,
          s = leftStr ++ "\n" ++ spacesN ind ++ op ++ "(" ++ "\n" ++
            spacesN (ind + op.length + opts.indentSize) ++ innerStr ++ "\n" ++
            spacesN (ind + op.length) ++ ")") := by
  constructor
  · intro fuel inner opts ind col s hc hp
    simp only [printNestedExpression, hc, except_bind_ok, Bool.not_true,
      Bool.false_eq_true, if_false] at hp
    split at hp
    · cases hpi : print fuel inner opts (col + 1) (col + 1) with
      | error e =>
          rw [hpi, except_bind_error] at hp
          cases hp
      | ok v =>
          rw [hpi, except_bind_ok] at hp
          injection hp with hp
          subst hp
          constructor
          · simp [String.toList, String.data_append]
          · refine lastLine_of_toList _ _
              ('(' :: '\n' :: ((spacesN (col + 1)).toList ++ v.toList)) ?_
              (no_nl_closing col)
            simp [String.toList, String.data_append]
    · cases hpi : print fuel inner opts (col + opts.indentSize)
          (col + opts.indentSize) with
      | error e =>
          rw [hpi, except_bind_error] at hp
          cases hp
      | ok v =>
          rw [hpi, except_bind_ok] at hp
          injection hp with hp
          subst hp
          constructor
          · simp [String.toList, String.data_append]
          · refine lastLine_of_toList _ _
              ('(' :: '\n' :: ((spacesN (col + opts.indentSize)).toList ++
                v.toList)) ?_ (no_nl_closing col)
            simp [String.toList, String.data_append]
  · intro fuel op l inner opts ind col s hb hp
    simp only [printCompound, hb, except_bind_ok, if_true] at hp
    cases hpl : print fuel l opts ind col with
    | error e =>
        rw [hpl, except_bind_error] at hp
        cases hp
    | ok lv =>
        rw [hpl, except_bind_ok] at hp
        cases hpi : print fuel inner opts (ind + op.length + opts.indentSize)
            (ind + op.length + opts.indentSize) with
        | error e =>
            rw [hpi, except_bind_error] at hp
            cases hp
        | ok iv =>
            rw [hpi, except_bind_ok] at hp
            injection hp with hp
            subst hp
            constructor
            · refine lastLine_of_toList _ _
                (lv.toList ++ '\n' :: ((spacesN ind).toList ++ op.toList ++
                  '(' :: '\n' :: ((spacesN (ind + op.length +
                    opts.indentSize)).toList ++ iv.toList)))
                ?_ (no_nl_closing (ind + op.length))
              simp [String.toList, String.data_append]
            · exact ⟨lv, iv, rfl⟩

/-- C8 witness: a concrete complex inner expression rendered multi-line at
column 0 opens with `(` and closes with `)` at column 0. -/
theorem c8_alignment_witness :
    isComplex innerRefined = .ok true ∧
    printNestedExpression 50 innerRefined defaultOptions 0 0 =
      .ok "(\n  << 404684003: 363698007 = << 39057004\n)" ∧
    ("(\n  << 404684003: 363698007 = << 39057004\n)" : String).toList.head?
      = some '(' ∧
    lastLine "(\n  << 404684003: 363698007 = << 39057004\n)" = spacesN 0 ++ ")" := by
  refine ⟨rfl, rfl, ?_⟩
  exact c8_closing_paren_amended.1 49 innerRefined defaultOptions 0 0
    "(\n  << 404684003: 363698007 = << 39057004\n)" rfl rfl

end Ecl

namespace Ecl

theorem runLen_all (p : Char → Bool) (l : List Char)
    (h : ∀ c ∈ l, p c = true) : runLen p l = l.length := by
  induction l with
  | nil => rfl
  | cons c t ih =>
      have hc := h c (by simp)
      simp [runLen, hc, ih (fun x hx => h x (by simp [hx]))]

theorem runLen_stop (p : Char → Bool) (a : List Char) (x : Char) (rest : List Char)
    (ha : ∀ c ∈ a, p c = true) (hx : p x = false) :
    runLen p (a ++ x :: rest) = a.length := by
  induction a with
  | nil => simp [runLen, hx]
  | cons c t ih =>
      have hc := ha c (by simp)
      simp [runLen, hc, ih (fun y hy => ha y (by simp [hy]))]

theorem matchDecimalValue_dotted_none (a b : List Char)
    (ha : ∀ c ∈ a, isDigitCh c = true) (hb : ∀ c ∈ b, isDigitCh c = true)
    (hb6 : 6 ≤ b.length) :
    matchDecimalValue (a ++ '.' :: b) = none := by
  cases a with
  | nil =>
      simp [matchDecimalValue, runLen, isDigitCh]
  | cons c a' =>
      have hc : isDigitCh c = true := ha c (by simp)
      have hplus : ¬ (c = '+') := by
        intro h; subst h; simp [isDigitCh] at hc
      have hminus : ¬ (c = '-') := by
        intro h; subst h; simp [isDigitCh] at hc
      have hrun : runLen isDigitCh (c :: (a' ++ '.' :: b)) = a'.length + 1 := by
        rw [← List.cons_append]
        rw [runLen_stop isDigitCh (c :: a') '.' b (fun y hy => ha y hy) (by rfl)]
        rfl
      have hdrop : (c :: (a' ++ '.' :: b)).drop (a'.length + 1) = '.' :: b := by
        rw [← List.cons_append]
        rw [show a'.length + 1 = (c :: a').length from rfl]
        exact List.drop_left _ _
      have hfrac : runLen isDigitCh b = b.length := runLen_all isDigitCh b hb
      have hcond : (decide (some c = some '+') || decide (some c = some '-'))
          = false := by simp [hplus, hminus]
      simp only [matchDecimalValue, List.cons_append, List.head?_cons]
      simp only [hcond]
      simp only [Bool.false_eq_true, if_false, List.drop_zero]
      rw [hrun, if_neg (by omega), hdrop]
      simp only [hfrac]
      rw [if_neg (by omega), if_pos hb6]

end Ecl

namespace Ecl

/-- C9: the tokenizer lexes the dotted two-concept-ID sequence as
SctId, Dot, SctId rather than as a decimal, a genuine decimal stays one
token, and at the matcher level the lookahead rejects every dotted pair
of digit runs whose fractional run has 6 or more digits. -/
theorem c9_decimal_lookahead :
    tokenize "929360061000036106.127489000" =
      ⟨[⟨.sctId, "929360061000036106", 0⟩, ⟨.dot, ".", 18⟩,
        ⟨.sctId, "127489000", 19⟩], []⟩ ∧
    tokenize "12.5" = ⟨[⟨.decimalValue, "12.5", 0⟩], []⟩ ∧
    matchDecimalValue "929360061000036106.127489000".toList = none ∧
    matchDecimalValue "12.5".toList = some 4 ∧
    ∀ a b : List Char, (∀ c ∈ a, isDigitCh c = true) →
      (∀ c ∈ b, isDigitCh c = true) → 6 ≤ b.length →
      matchDecimalValue (a ++ '.' :: b) = none := by
  refine ⟨rfl, rfl, rfl, rfl, ?_⟩
  exact matchDecimalValue_dotted_none

/-- C9 witness: the universal lookahead fact applied to two concrete
six-digit runs. -/
theorem c9_decimal_witness :
    matchDecimalValue (['1', '2', '3', '4', '5', '6'] ++ '.' ::
      ['5', '4', '4', '8', '6', '6']) = none :=
  c9_decimal_lookahead.2.2.2.2 ['1', '2', '3', '4', '5', '6']
    ['5', '4', '4', '8', '6', '6'] (by decide) (by decide) (by decide)

end Ecl
